import Mathlib

/-!
Verification of the saki control plane's Kubernetes deployer and app service.

The definitions below are a shallow embedding of the TypeScript sources:

* the naming helpers (`toKubeNameFragment`, `toLabelValue`, `appResourceNames`),
  the record codec (`annotationsForApp`, `deploymentToRecord`) and the status
  derivation (`statusFromDeployment`) from the Kubernetes deployer module;
* the log-cursor codec (`encodeCursor`, `decodeCursor`) and log pagination;
* the deployer operations (`findAppByOwnerAndName`, `findAppById`,
  `setAppReplicas`, `deleteAppResources`, `upsertAppResources`) over an explicit
  cluster state, and the app service operations built on them.

Modelling conventions: JavaScript strings are Lean `String`s; `toLowerCase` is
modelled on the ASCII range by `Char.toLower`; wall-clock values produced by
`new Date()` are passed as explicit parameters; fallible operations return
`Except`; Kubernetes API objects are structures whose optional fields are
`Option`s, and an absent `metadata` object is modelled as a metadata value with
all fields absent (every source access goes through `metadata?.field`, so the
two are indistinguishable).
-/

namespace Saki

/-- Lowercase ASCII letter or decimal digit. -/
def isLowerAlnum (c : Char) : Bool :=
  (('a' ≤ c) && (c ≤ 'z')) || (('0' ≤ c) && (c ≤ '9'))

/-- Character allowed in a Kubernetes object name: lowercase alphanumeric or hyphen. -/
def isNameChar (c : Char) : Bool :=
  isLowerAlnum c || c == '-'

/-- Character allowed in a Kubernetes label value: lowercase alphanumeric, dot,
underscore or hyphen (the class `[a-z0-9._-]` from `toLabelValue`). -/
def isLabelChar (c : Char) : Bool :=
  isLowerAlnum c || c == '.' || c == '_' || c == '-'

/-- Lowercasing followed by the regex replace of every character outside
`[a-z0-9-]` by a hyphen (first two steps of `toKubeNameFragment`). -/
def replaceDisallowed (cs : List Char) : List Char :=
  cs.map fun c => let l := c.toLower; if isNameChar l then l else '-'

/-- Helper for `collapseHyphens`; `prev` is the character just emitted. -/
def collapseFrom (prev : Char) : List Char → List Char
  | [] => []
  | c :: rest =>
    if prev == '-' && c == '-' then collapseFrom prev rest
    else c :: collapseFrom c rest

/-- The regex replace of each run of hyphens by a single hyphen. -/
def collapseHyphens : List Char → List Char
  | [] => []
  | c :: rest => c :: collapseFrom c rest

/-- The regex replace stripping leading hyphens. -/
def dropLeadingHyphens (cs : List Char) : List Char :=
  cs.dropWhile fun c => c == '-'

/-- The regex replace stripping trailing hyphens. -/
def dropTrailingHyphens (cs : List Char) : List Char :=
  (cs.reverse.dropWhile fun c => c == '-').reverse

/-- Model of `toKubeNameFragment` (src/unnamed/part_018 lines 150-159): lowercase,
replace disallowed characters by hyphens, collapse hyphen runs, strip edge
hyphens, slice to `maxLength` re-stripping trailing hyphens, and fall back to
the literal "app" when the result is empty. -/
def toKubeNameFragment (value : String) (maxLength : Nat) : String :=
  let normalized :=
    dropTrailingHyphens (dropLeadingHyphens (collapseHyphens (replaceDisallowed value.data)))
  let sliced := dropTrailingHyphens (normalized.take maxLength)
  if sliced.isEmpty then "app" else String.mk sliced

/-- Model of `normalizeOwner` (lines 146-148): JS `toLowerCase`, modelled on
the ASCII fragment. -/
def normalizeOwner (owner : String) : String :=
  String.mk (owner.data.map Char.toLower)

/-- Model of `toLabelValue` (lines 161-180) with its default fallback "x". -/
def toLabelValue (value : String) : String :=
  let cleaned := value.data.map fun c => let l := c.toLower; if isLabelChar l then l else '-'
  let normalized := (dropTrailingHyphens (dropLeadingHyphens cleaned)).take 63
  match normalized with
  | [] => "x"
  | c :: _ =>
    if isLowerAlnum c && isLowerAlnum (normalized.getLastD 'a') then String.mk normalized
    else
      let stripped :=
        ((normalized.dropWhile fun d => !isLowerAlnum d).reverse.dropWhile fun d =>
          !isLowerAlnum d).reverse
      if stripped.isEmpty then "x" else String.mk stripped

/-- Model of the `app_id` fragment of `appResourceBaseName` (line 184):
lowercase, strip non-alphanumerics, keep the first 10 characters, falling back
to the literal "app" when empty. -/
def idFragment (appId : String) : String :=
  let f := ((appId.data.map Char.toLower).filter isLowerAlnum).take 10
  if f.isEmpty then "app" else String.mk f

/-- Model of `appResourceBaseName` (lines 182-186), on the two fields it reads. -/
def appResourceBaseNameOf (name appId : String) : String :=
  "saki-" ++ toKubeNameFragment name 32 ++ "-" ++ idFragment appId

/-- The three per-app resource names (lines 188-195), on the fields read. -/
structure ResourceNames where
  deployment : String
  service : String
  ingress : String
deriving Repr, DecidableEq

/-- Model of `appResourceNames` (lines 188-195), on the two fields it reads. -/
def appResourceNamesOf (name appId : String) : ResourceNames :=
  let base := appResourceBaseNameOf name appId
  { deployment := base ++ "-dep"
    service := base ++ "-svc"
    ingress := base ++ "-ing" }

/-- Validity of a generated object name, as claim C5 states it: nonempty, only
lowercase alphanumerics and hyphens, no leading or trailing hyphen, within the
63-character name length limit. -/
def validObjectName (s : String) : Bool :=
  (!s.data.isEmpty) && s.data.all isNameChar
    && (s.data.headD '-' != '-') && (s.data.getLastD '-' != '-')
    && decide (s.data.length ≤ 63)

/-! Label and annotation keys (src/unnamed/part_018 lines 44-61). -/

def CONTROL_PLANE_LABEL_VALUE : String := "saki-control-plane"

def LABEL_MANAGED_BY : String := "app.kubernetes.io/managed-by"

def LABEL_OWNER : String := "saki.dev/owner"

def LABEL_APP_NAME : String := "saki.dev/name"

def LABEL_APP_ID : String := "saki.dev/app-id"

def ANN_APP_ID : String := "saki.dev/app-id"

def ANN_DEPLOYMENT_ID : String := "saki.dev/deployment-id"

def ANN_OWNER : String := "saki.dev/owner"

def ANN_NAME : String := "saki.dev/name"

def ANN_DESCRIPTION : String := "saki.dev/description"

def ANN_URL : String := "saki.dev/url"

def ANN_IMAGE : String := "saki.dev/image"

def ANN_CREATED_AT : String := "saki.dev/created-at"

def ANN_UPDATED_AT : String := "saki.dev/updated-at"

def ANN_TTL_EXPIRY : String := "saki.dev/ttl-expiry"

def ANN_STATUS : String := "saki.dev/status"

-- Decidable equality for `Except` results, to evaluate the model at concrete inputs.
deriving instance DecidableEq for Except

/-! The domain model (src/unnamed/part_019). -/

/-- Model of the `AppStatus` union type. -/
inductive AppStatus where
  | pending
  | deploying
  | healthy
  | failed
  | stopped
  | deleting
deriving Repr, DecidableEq

/-- The string stored for an `AppStatus` (TS statuses are plain strings). -/
def statusToString : AppStatus → String
  | .pending => "pending"
  | .deploying => "deploying"
  | .healthy => "healthy"
  | .failed => "failed"
  | .stopped => "stopped"
  | .deleting => "deleting"

/-- Model of the `AppRecord` interface. -/
structure AppRecord where
  app_id : String
  deployment_id : String
  owner : String
  name : String
  description : String
  image : String
  url : String
  status : AppStatus
  created_at : String
  updated_at : String
  ttl_expiry : String
deriving Repr, DecidableEq

/-! JavaScript string-map and truthiness helpers. A JS object of string keys is
modelled as an association list; `annGet` models indexing (`undefined` is
`none`), `annSet` models spread-update `\x7b...obj, k: v\x7d`. JS string
truthiness (`""` and `undefined` are falsy) is `jsTruthy`. -/

/-- Lookup in a JS string-keyed object. -/
def annGet (a : List (String × String)) (k : String) : Option String :=
  (a.find? fun p => p.1 == k).map Prod.snd

/-- Spread-update of a JS string-keyed object: overwrite `k` if present, else append. -/
def annSet (a : List (String × String)) (k v : String) : List (String × String) :=
  if a.any fun p => p.1 == k then a.map fun p => if p.1 == k then (k, v) else p
  else a ++ [(k, v)]

/-- JS truthiness of a possibly-absent string: `undefined` and `""` are falsy. -/
def jsTruthy : Option String → Bool
  | none => false
  | some s => !(s == "")

/-- JS `a || b` on possibly-absent strings. -/
def jsOr (a b : Option String) : Option String :=
  if jsTruthy a then a else b

/-- JS `a || b` where the final alternative is a present string. -/
def jsOrD (a : Option String) (b : String) : String :=
  if jsTruthy a then a.getD "" else b

/-! Kubernetes object model. Fields the source reads through `?.` are
`Option`s; an absent `metadata`/`status` object is modelled as a value with all
fields absent (`conditions` defaults to `[]` via `|| []` in the source), which
the source cannot distinguish from the absent object. `spec` stays an `Option`
because `setAppReplicas` tests `!deployment.spec` explicitly. -/

/-- One entry of `deployment.status.conditions`. -/
structure DeploymentCondition where
  type_ : String
  status : String
  reason : Option String
deriving Repr, DecidableEq

/-- The fields of `deployment.status` the source reads. -/
structure DeploymentStatusInfo where
  conditions : List DeploymentCondition
  readyReplicas : Option Int
  availableReplicas : Option Int
  observedGeneration : Option Int
  replicas : Option Int
deriving Repr, DecidableEq

/-- The fields of `metadata` the source reads. -/
structure ObjectMeta where
  name : Option String
  labels : List (String × String)
  annotations : List (String × String)
  deletionTimestamp : Option String
  generation : Option Int
  creationTimestamp : Option String
  resourceVersion : Option String
deriving Repr, DecidableEq

/-- The fields of `deployment.spec` the source reads; `templateImage` stands for
`spec.template.spec.containers[0].image`. -/
structure DeploymentSpecInfo where
  replicas : Option Int
  templateImage : Option String
deriving Repr, DecidableEq

/-- Model of a `V1Deployment` as the source reads it. -/
structure V1Deployment where
  metadata : ObjectMeta
  spec : Option DeploymentSpecInfo
  status : DeploymentStatusInfo
deriving Repr, DecidableEq

/-- A service or ingress object, of which the source only reads metadata. -/
structure KubeObject where
  metadata : ObjectMeta
deriving Repr, DecidableEq

/-- A deployment status block with nothing reported (fresh object). -/
def noStatusInfo : DeploymentStatusInfo :=
  { conditions := [], readyReplicas := none, availableReplicas := none
    observedGeneration := none, replicas := none }

/-- Model of `statusFromDeployment` (src/unnamed/part_018 lines 250-280). -/
def statusFromDeployment (d : V1Deployment) : AppStatus :=
  if d.metadata.deletionTimestamp.isSome then .deleting
  else
    let desiredReplicas := (d.spec.bind fun s => s.replicas).getD 1
    if desiredReplicas = 0 then .stopped
    else
      let progressing := d.status.conditions.find? fun c => c.type_ == "Progressing"
      if (match progressing with
          | some p => p.status == "False" && p.reason == some "ProgressDeadlineExceeded"
          | none => false) then .failed
      else
        let ready := d.status.readyReplicas.getD 0
        let available := d.status.availableReplicas.getD 0
        let observedGeneration := d.status.observedGeneration.getD 0
        let generation := d.metadata.generation.getD 0
        if 0 < ready ∧ 0 < available ∧ generation ≤ observedGeneration then .healthy
        else if d.status.replicas.getD 0 = 0 then .pending
        else .deploying

/-- Model of `labelsForApp` (lines 282-289). -/
def labelsForApp (app : AppRecord) : List (String × String) :=
  [(LABEL_MANAGED_BY, CONTROL_PLANE_LABEL_VALUE),
   (LABEL_OWNER, toLabelValue (normalizeOwner app.owner)),
   (LABEL_APP_NAME, toLabelValue app.name),
   (LABEL_APP_ID, toLabelValue app.app_id)]

/-- Model of `selectorLabelsForApp` (lines 291-296). -/
def selectorLabelsForApp (app : AppRecord) : List (String × String) :=
  [(LABEL_MANAGED_BY, CONTROL_PLANE_LABEL_VALUE),
   (LABEL_APP_ID, toLabelValue app.app_id)]

/-- Model of `annotationsForApp` (lines 298-312): the record encoder. -/
def annotationsForApp (app : AppRecord) (status : AppStatus) : List (String × String) :=
  [(ANN_APP_ID, app.app_id),
   (ANN_DEPLOYMENT_ID, app.deployment_id),
   (ANN_OWNER, normalizeOwner app.owner),
   (ANN_NAME, app.name),
   (ANN_DESCRIPTION, app.description),
   (ANN_URL, app.url),
   (ANN_IMAGE, app.image),
   (ANN_CREATED_AT, app.created_at),
   (ANN_UPDATED_AT, app.updated_at),
   (ANN_TTL_EXPIRY, app.ttl_expiry),
   (ANN_STATUS, statusToString status)]

/-- Record-level resource names, as `appResourceNames` takes the `AppRecord`. -/
def appResourceNames (app : AppRecord) : ResourceNames :=
  appResourceNamesOf app.name app.app_id

/-- Model of `deploymentToRecord` (lines 326-358): the record decoder. The
wall-clock fallback `new Date().toISOString()` is the parameter `now`. -/
def deploymentToRecord (d : V1Deployment) (now : String) : Option AppRecord :=
  let annotations := d.metadata.annotations
  let appId := annGet annotations ANN_APP_ID
  let deploymentId := annGet annotations ANN_DEPLOYMENT_ID
  let owner := annGet annotations ANN_OWNER
  let name := annGet annotations ANN_NAME
  let description := annGet annotations ANN_DESCRIPTION
  let url := annGet annotations ANN_URL
  let createdAt := annGet annotations ANN_CREATED_AT
  let updatedAt := annGet annotations ANN_UPDATED_AT
  let ttlExpiry := annGet annotations ANN_TTL_EXPIRY
  let image := jsOr (annGet annotations ANN_IMAGE) (d.spec.bind fun s => s.templateImage)
  if jsTruthy appId && jsTruthy deploymentId && jsTruthy owner && jsTruthy name
      && jsTruthy description && jsTruthy url && jsTruthy image then
    let createdTimestamp := d.metadata.creationTimestamp
    some
      { app_id := appId.getD ""
        deployment_id := deploymentId.getD ""
        owner := owner.getD ""
        name := name.getD ""
        description := description.getD ""
        image := image.getD ""
        url := url.getD ""
        status := statusFromDeployment d
        created_at := jsOrD (jsOr createdAt createdTimestamp) now
        updated_at := jsOrD (jsOr updatedAt createdTimestamp) now
        ttl_expiry := jsOrD ttlExpiry now }
  else none

/-- The deployment body built by `upsertAppResources` (lines 509-545): a fresh
object carrying the app labels, the annotations with status `deploying`, the
requested replica count and the container image. -/
def deploymentBodyFor (app : AppRecord) (replicas : Int) : V1Deployment :=
  { metadata :=
      { name := some (appResourceNames app).deployment
        labels := labelsForApp app
        annotations := annotationsForApp app .deploying
        deletionTimestamp := none
        generation := none
        creationTimestamp := none
        resourceVersion := none }
    spec := some { replicas := some replicas, templateImage := some app.image }
    status := noStatusInfo }

/-- The service body built by `upsertAppResources` (lines 547-567), restricted
to the metadata the model tracks. -/
def serviceBodyFor (app : AppRecord) : KubeObject :=
  { metadata :=
      { name := some (appResourceNames app).service
        labels := labelsForApp app
        annotations := annotationsForApp app .deploying
        deletionTimestamp := none
        generation := none
        creationTimestamp := none
        resourceVersion := none } }

/-- The ingress body built by `upsertAppResources` (lines 569-600), restricted
to the metadata the model tracks. -/
def ingressBodyFor (app : AppRecord) : KubeObject :=
  { metadata :=
      { name := some (appResourceNames app).ingress
        labels := labelsForApp app
        annotations := annotationsForApp app .deploying
        deletionTimestamp := none
        generation := none
        creationTimestamp := none
        resourceVersion := none } }

/-! Log cursor codec (src/unnamed/part_018 lines 211-227). The cursor is the
base64url rendering of the decimal offset. Byte strings are lists of byte
values; UTF-8 conversion is modelled on the ASCII fragment, which covers every
value the encoder produces (decimal digits). -/

/-- The base64url alphabet in index order. -/
def b64Alphabet : List Char :=
  "ABCDEFGHIJKLMNOPQRSTUVWXYZabcdefghijklmnopqrstuvwxyz0123456789-_".data

/-- Character for a 6-bit group. -/
def b64Char (i : Nat) : Char :=
  b64Alphabet.getD i 'A'

/-- Index of a base64url character. -/
def b64Index (c : Char) : Option Nat :=
  b64Alphabet.findIdx? fun d => d == c

/-- Unpadded base64url encoding of a byte list (Node `base64url` omits padding). -/
def base64urlEncode : List Nat → List Char
  | [] => []
  | [b1] => [b64Char (b1 / 4), b64Char (b1 % 4 * 16)]
  | [b1, b2] => [b64Char (b1 / 4), b64Char (b1 % 4 * 16 + b2 / 16), b64Char (b2 % 16 * 4)]
  | b1 :: b2 :: b3 :: rest =>
    b64Char (b1 / 4) :: b64Char (b1 % 4 * 16 + b2 / 16)
      :: b64Char (b2 % 16 * 4 + b3 / 64) :: b64Char (b3 % 64) :: base64urlEncode rest

/-- Unpadded base64url decoding. Inputs Node would not produce from
`encodeCursor` (stray characters, length 1 mod 4) yield `none`; `decodeCursor`
maps that to offset 0, the same observable result as Node's forgiving decoder
followed by a failed `Number` parse. -/
def base64urlDecode : List Char → Option (List Nat)
  | [] => some []
  | [_] => none
  | [c1, c2] =>
    match b64Index c1, b64Index c2 with
    | some i1, some i2 => some [i1 * 4 + i2 / 16]
    | _, _ => none
  | [c1, c2, c3] =>
    match b64Index c1, b64Index c2, b64Index c3 with
    | some i1, some i2, some i3 => some [i1 * 4 + i2 / 16, i2 % 16 * 16 + i3 / 4]
    | _, _, _ => none
  | c1 :: c2 :: c3 :: c4 :: rest =>
    match b64Index c1, b64Index c2, b64Index c3, b64Index c4, base64urlDecode rest with
    | some i1, some i2, some i3, some i4, some tail =>
      some ((i1 * 4 + i2 / 16) :: (i2 % 16 * 16 + i3 / 4) :: (i3 % 4 * 64 + i4) :: tail)
    | _, _, _, _, _ => none

/-- ASCII digit character for a value below 10. -/
def digitChar (n : Nat) : Char :=
  Char.ofNat (48 + n)

/-- Decimal rendering worker, structurally recursive on a fuel bound so that
concrete cursors evaluate in the kernel; fuel `n + 1` always suffices. -/
def natToDecimalAux : Nat → Nat → List Char
  | 0, _ => []
  | fuel + 1, n =>
    if n < 10 then [digitChar n]
    else natToDecimalAux fuel (n / 10) ++ [digitChar (n % 10)]

/-- Decimal rendering of a natural number, as JS `String(n)` produces for the
nonnegative integers reaching `encodeCursor`. -/
def natToDecimal (n : Nat) : List Char :=
  natToDecimalAux (n + 1) n

/-- ASCII decimal digit test. -/
def isDigitChar (c : Char) : Bool :=
  ('0' ≤ c) && (c ≤ '9')

/-- Value of a decimal digit string. -/
def digitsVal (cs : List Char) : Nat :=
  cs.foldl (fun a c => a * 10 + (c.toNat - 48)) 0

/-- Model of `Number(raw)` on the domain `decodeCursor` can feed it with: the
empty string is 0 (as in JS) and digit strings parse; everything else is
treated as a failed parse, which `decodeCursor` maps to offset 0 exactly as the
source maps non-finite or negative results to 0. -/
def jsNumberNat (s : String) : Option Nat :=
  if s.data.isEmpty then some 0
  else if s.data.all isDigitChar then some (digitsVal s.data) else none

/-- UTF-8 bytes of a string, on the ASCII fragment. -/
def strToBytes (s : String) : List Nat :=
  s.data.map Char.toNat

/-- String of UTF-8 bytes, on the ASCII fragment. -/
def bytesToStr (bs : List Nat) : String :=
  String.mk (bs.map Char.ofNat)

/-- Model of `encodeCursor` (lines 225-227). -/
def encodeCursor (offset : Nat) : String :=
  String.mk (base64urlEncode (strToBytes (String.mk (natToDecimal offset))))

/-- Model of `decodeCursor` (lines 211-223) on a present cursor string: the
empty cursor (JS falsy) is offset 0; otherwise base64url-decode, view as
UTF-8, parse with `Number`, and keep finite nonnegative values (`Math.trunc`
is the identity on them), mapping everything else to 0. -/
def decodeCursorStr (s : String) : Nat :=
  if s == "" then 0
  else
    match base64urlDecode s.data with
    | none => 0
    | some bytes =>
      match jsNumberNat (bytesToStr bytes) with
      | none => 0
      | some n => n

/-- Model of `decodeCursor` on the optional cursor: absent means offset 0. -/
def decodeCursor (cursor : Option String) : Nat :=
  match cursor with
  | none => 0
  | some s => decodeCursorStr s

/-- One page of log lines. `data` holds the raw window lines; the per-line
`parseLogLine` enrichment is one-to-one and involves `Date.parse` and the wall
clock, so it is outside the model. -/
structure LogsPageModel where
  data : List String
  next_cursor : Option String
deriving Repr, DecidableEq

/-- The tail window construction of `readLogs` (lines 748-751): split the raw
log text on newlines, trim each line, drop empties. -/
def logWindow (raw : String) : List String :=
  ((raw.splitOn "\n").map String.trim).filter fun l => !(l == "")

/-- The pagination of `readLogs` (lines 752-759) over the fetched window
`lines`: slice `[offset, offset+limit)` and emit the follow-up cursor unless
the end of the window is reached. -/
def readLogsPage (lines : List String) (cursor : Option String) (limit : Nat) : LogsPageModel :=
  let offset := decodeCursor cursor
  let page := (lines.drop offset).take limit
  let nextOffset := offset + page.length
  { data := page
    next_cursor := if nextOffset < lines.length then some (encodeCursor nextOffset) else none }

/-! Cluster state and the deployer operations (src/unnamed/part_018). The
namespace is fixed, so objects live in three flat lists keyed by
`metadata.name`. The label-selector string built by `buildSelector` is
interpreted by the orchestrator as a conjunction of equality requirements;
the model keeps the selector as the pair list and applies that conjunction
directly. -/

/-- Cluster state: the managed objects of the single namespace. -/
structure Cluster where
  deployments : List V1Deployment
  services : List KubeObject
  ingresses : List KubeObject
deriving Repr, DecidableEq

/-- Label-selector semantics: every selector pair must appear in the labels. -/
def matchesSelector (labels : List (String × String)) (sel : List (String × String)) : Bool :=
  sel.all fun p => annGet labels p.1 == some p.2

/-- The orchestrator's list call filtered by a label selector. -/
def listDeployments (c : Cluster) (sel : List (String × String)) : List V1Deployment :=
  c.deployments.filter fun d => matchesSelector d.metadata.labels sel

/-- The listed objects that decode to records for the (owner, name) identity
lookup (the `matches` local of `findAppByOwnerAndName`). -/
def ownerNameMatches (c : Cluster) (owner name now : String) : List AppRecord :=
  (listDeployments c
    [(LABEL_MANAGED_BY, CONTROL_PLANE_LABEL_VALUE),
     (LABEL_OWNER, toLabelValue (normalizeOwner owner)),
     (LABEL_APP_NAME, toLabelValue name)]).filterMap fun d => deploymentToRecord d now

/-- Model of `findAppByOwnerAndName` (lines 435-454). The thrown consistency
`Error` is `Except.error` with a marker string. -/
def findAppByOwnerAndName (c : Cluster) (owner name now : String) :
    Except String (Option AppRecord) :=
  let found := ownerNameMatches c owner name now
  if 1 < found.length then .error "multiple-deployments-for-owner-and-name"
  else .ok found.head?

/-- The listed objects that decode to records for the app-id identity lookup
(the `matches` local of `findAppById`). -/
def idMatches (c : Cluster) (appId now : String) : List AppRecord :=
  (listDeployments c
    [(LABEL_MANAGED_BY, CONTROL_PLANE_LABEL_VALUE),
     (LABEL_APP_ID, toLabelValue appId)]).filterMap fun d => deploymentToRecord d now

/-- Model of `findAppById` (lines 456-474). -/
def findAppById (c : Cluster) (appId now : String) : Except String (Option AppRecord) :=
  let found := idMatches c appId now
  if 1 < found.length then .error "multiple-deployments-for-app-id"
  else .ok found.head?

/-- Model of `createOrReplaceDeployment` (lines 762-795): replace the named
object, carrying over the read object's `resourceVersion`, or create it. -/
def createOrReplaceDeployment (store : List V1Deployment) (body : V1Deployment) :
    List V1Deployment :=
  match store.find? fun d => d.metadata.name == body.metadata.name with
  | some existing =>
    store.map fun d =>
      if d.metadata.name == body.metadata.name then
        { body with
            metadata := { body.metadata with
                            resourceVersion := existing.metadata.resourceVersion } }
      else d
  | none => store ++ [body]

/-- Model of `createOrReplaceService` / `createOrReplaceIngress` (lines
797-865), identical in shape to the deployment variant. -/
def createOrReplaceObject (store : List KubeObject) (body : KubeObject) : List KubeObject :=
  match store.find? fun o => o.metadata.name == body.metadata.name with
  | some existing =>
    store.map fun o =>
      if o.metadata.name == body.metadata.name then
        { body with
            metadata := { body.metadata with
                            resourceVersion := existing.metadata.resourceVersion } }
      else o
  | none => store ++ [body]

/-- Model of `upsertAppResources` (lines 498-605): create-or-replace the three
objects. The database URL only feeds the container environment and plays no
role in the claims. -/
def upsertAppResources (c : Cluster) (app : AppRecord) (replicas : Int) : Cluster :=
  { deployments := createOrReplaceDeployment c.deployments (deploymentBodyFor app replicas)
    services := createOrReplaceObject c.services (serviceBodyFor app)
    ingresses := createOrReplaceObject c.ingresses (ingressBodyFor app) }

/-- The replacement body `setAppReplicas` builds from the read deployment
(lines 615-635): the read object with the `updated_at` and `status`
annotations overlaid and the replica count set. -/
def replicasPatch (deployment : V1Deployment) (spec : DeploymentSpecInfo) (replicas : Int)
    (status : AppStatus) (now : String) : V1Deployment :=
  { deployment with
      metadata := { deployment.metadata with
                      annotations :=
                        annSet (annSet deployment.metadata.annotations ANN_UPDATED_AT now)
                          ANN_STATUS (statusToString status) }
      spec := some { spec with replicas := some replicas } }

/-- The cluster after `setAppReplicas` replaces the named deployment with the
patched body (the `replaceNamespacedDeployment` call, lines 637-641). -/
def replicasReplace (c : Cluster) (app : AppRecord) (deployment : V1Deployment)
    (spec : DeploymentSpecInfo) (replicas : Int) (status : AppStatus) (now : String) : Cluster :=
  { c with
      deployments := c.deployments.map fun d =>
        if d.metadata.name == some (appResourceNames app).deployment then
          replicasPatch deployment spec replicas status now
        else d }

/-- Model of `setAppReplicas` (lines 607-649): read the deployment, overlay the
`updated_at`/`status` annotations and the replica count onto the read object,
replace it, and re-read through `findAppById`. `now` is the wall clock. -/
def setAppReplicas (c : Cluster) (app : AppRecord) (replicas : Int) (status : AppStatus)
    (now : String) : Except String (Cluster × AppRecord) :=
  match c.deployments.find? fun d =>
      d.metadata.name == some (appResourceNames app).deployment with
  | none => .error "read-deployment-not-found"
  | some deployment =>
    match deployment.spec with
    | none => .error "deployment-has-no-spec"
    | some spec =>
      match findAppById (replicasReplace c app deployment spec replicas status now)
          app.app_id now with
      | .error e => .error e
      | .ok none => .error "deployment-disappeared-after-replica-change"
      | .ok (some updated) =>
        .ok (replicasReplace c app deployment spec replicas status now, updated)

/-- Cluster-level effect of `deleteAppResources` (lines 651-695) when no
injected fault occurs: each delete removes the named object, and deleting an
absent object is already success. Fault injection is `deleteAppResourcesOutcome`. -/
def deleteAppResourcesCluster (c : Cluster) (app : AppRecord) : Cluster :=
  let names := appResourceNames app
  { deployments := c.deployments.filter fun d => !(d.metadata.name == some names.deployment)
    services := c.services.filter fun o => !(o.metadata.name == some names.service)
    ingresses := c.ingresses.filter fun o => !(o.metadata.name == some names.ingress) }

/-- A thrown Kubernetes client error, as `isNotFoundError` inspects it:
whether it is an `ApiException` and its HTTP code. -/
structure KubeErr where
  apiException : Bool
  code : Nat
deriving Repr, DecidableEq

/-- Model of `isNotFoundError` (lines 360-362). -/
def isNotFoundError (e : KubeErr) : Bool :=
  e.apiException && e.code == 404

/-- The per-object guard inside `deleteAppResources`: swallow a not-found
failure, rethrow anything else. -/
def deleteGuard (outcome : Except KubeErr Unit) : Except KubeErr Unit :=
  match outcome with
  | .ok _ => .ok ()
  | .error e => if isNotFoundError e then .ok () else .error e

/-- Outcome-level model of `deleteAppResources` (lines 651-695): the three
deletes are issued independently under `Promise.all`, so each outcome is a
parameter and the aggregate fails iff some guarded delete fails. Which failing
delete's error surfaces first from `Promise.all` is timing-dependent; the
theorems only rely on the aggregate's success and on every surfaced error
being a non-not-found one. -/
def deleteAppResourcesOutcome (ing svc dep : Except KubeErr Unit) : Except KubeErr Unit :=
  match deleteGuard ing with
  | .error e => .error e
  | .ok _ =>
    match deleteGuard svc with
    | .error e => .error e
    | .ok _ => deleteGuard dep

/-- Claim-side predicate for C9: an individual delete outcome the source
treats as success, i.e. success proper or a not-found failure. -/
def okOrNotFound (o : Except KubeErr Unit) : Bool :=
  match o with
  | .ok _ => true
  | .error e => isNotFoundError e

/-! The app service (src/control-plane-backend/src/app.ts, AppService). -/

/-- Model of `ApiError` (status, code, message); the `details` payload is the
empty object for every error the modelled paths throw, so it is omitted. -/
structure ApiError where
  status : Nat
  code : String
  message : String
deriving Repr, DecidableEq

/-- The not-found error thrown by the five ownership-gated operations. -/
def notFoundError : ApiError :=
  { status := 404, code := "not_found", message := "App not found" }

/-- The catch-all surface of a non-`ApiError` exception (error-handler
middleware): HTTP 500 `internal_error`. -/
def internalError : ApiError :=
  { status := 500, code := "internal_error", message := "Internal server error" }

/-- The service configuration fields the modelled operations read. -/
structure ServiceConfig where
  registryHost : String
  appBaseDomain : String
deriving Repr, DecidableEq

/-- Model of the `UpsertAppResponse` shape. -/
structure UpsertAppResponse where
  app_id : String
  deployment_id : String
  url : String
  status : AppStatus
deriving Repr, DecidableEq

/-- Model of the `AppDetail` shape (app.ts lines 115-129). -/
structure AppDetail where
  app_id : String
  deployment_id : String
  name : String
  description : String
  url : String
  status : AppStatus
  created_at : String
  updated_at : String
  image : String
  ttl_expiry : String
  owner : String
deriving Repr, DecidableEq

/-- Model of `toAppDetail`. -/
def toAppDetail (app : AppRecord) : AppDetail :=
  { app_id := app.app_id
    deployment_id := app.deployment_id
    name := app.name
    description := app.description
    url := app.url
    status := app.status
    created_at := app.created_at
    updated_at := app.updated_at
    image := app.image
    ttl_expiry := app.ttl_expiry
    owner := app.owner }

/-- Model of the `StatusResponse` shape. -/
structure StatusResponse where
  app_id : String
  status : AppStatus
deriving Repr, DecidableEq

/-- Model of JS `String.prototype.startsWith` (used by the image namespace
check), character-wise on the underlying lists. -/
def jsStartsWith (s p : String) : Bool :=
  p.data.isPrefixOf s.data

/-- Model of `AppService.upsertApp` (app.ts lines 151-193). Wall-clock and
random values are parameters: `now` the current timestamp, `ttlExpiry` the
computed TTL expiry, and the two fresh UUIDs used when no existing record is
found. Postgres provisioning touches no app-record state and is not modelled.
A thrown consistency `Error` from the lookup surfaces as the generic 500. -/
def upsertApp (cfg : ServiceConfig) (c : Cluster) (owner name description image : String)
    (now ttlExpiry freshAppId freshDeploymentId : String) :
    Except ApiError (Cluster × UpsertAppResponse) :=
  if !(jsStartsWith image (cfg.registryHost ++ "/" ++ owner ++ "/" ++ name ++ ":")) then
    .error { status := 400, code := "invalid_image_namespace",
             message := "Image must match owner/app namespace" }
  else
    match findAppByOwnerAndName c owner name now with
    | .error _ => .error internalError
    | .ok existing =>
      .ok (upsertAppResources c
          { app_id := jsOrD (existing.map fun e => e.app_id) freshAppId
            deployment_id := jsOrD (existing.map fun e => e.deployment_id) freshDeploymentId
            owner := owner
            name := name
            description := description
            image := image
            url := "https://" ++ name ++ "." ++ cfg.appBaseDomain
            status := .deploying
            created_at := jsOrD (existing.map fun e => e.created_at) now
            updated_at := now
            ttl_expiry := ttlExpiry } 1,
        { app_id := jsOrD (existing.map fun e => e.app_id) freshAppId
          deployment_id := jsOrD (existing.map fun e => e.deployment_id) freshDeploymentId
          url := "https://" ++ name ++ "." ++ cfg.appBaseDomain
          status := .deploying })

/-- Model of `AppService.getApp` (app.ts lines 195-203). -/
def getApp (c : Cluster) (owner appId now : String) : Except ApiError AppDetail :=
  match findAppById c appId now with
  | .error _ => .error internalError
  | .ok none => .error notFoundError
  | .ok (some app) =>
    if app.owner ≠ owner then .error notFoundError
    else .ok (toAppDetail app)

/-- Model of `AppService.stopApp` (app.ts lines 219-236). -/
def stopApp (c : Cluster) (owner appId now : String) :
    Except ApiError (Cluster × StatusResponse) :=
  match findAppById c appId now with
  | .error _ => .error internalError
  | .ok none => .error notFoundError
  | .ok (some app) =>
    if app.owner ≠ owner then .error notFoundError
    else
      match setAppReplicas c app 0 .stopped now with
      | .error _ => .error internalError
      | .ok (c', updated) => .ok (c', { app_id := updated.app_id, status := updated.status })

/-- Model of `AppService.startApp` (app.ts lines 238-255). -/
def startApp (c : Cluster) (owner appId now : String) :
    Except ApiError (Cluster × StatusResponse) :=
  match findAppById c appId now with
  | .error _ => .error internalError
  | .ok none => .error notFoundError
  | .ok (some app) =>
    if app.owner ≠ owner then .error notFoundError
    else
      match setAppReplicas c app 1 .deploying now with
      | .error _ => .error internalError
      | .ok (c', updated) => .ok (c', { app_id := updated.app_id, status := updated.status })

/-- Model of `AppService.deleteApp` (app.ts lines 257-271): delete the three
resources (fault-free cluster semantics here) and report `deleting`. -/
def deleteApp (c : Cluster) (owner appId now : String) :
    Except ApiError (Cluster × StatusResponse) :=
  match findAppById c appId now with
  | .error _ => .error internalError
  | .ok none => .error notFoundError
  | .ok (some app) =>
    if app.owner ≠ owner then .error notFoundError
    else .ok (deleteAppResourcesCluster c app, { app_id := app.app_id, status := .deleting })

/-- Model of `AppService.getLogs` (app.ts lines 273-281). Pod selection and the
raw-log fetch of `readLogs` are outside the model; `window` is the tail window
the fetch produced. -/
def getLogs (c : Cluster) (owner appId : String) (window : List String)
    (cursor : Option String) (limit : Nat) (now : String) : Except ApiError LogsPageModel :=
  match findAppById c appId now with
  | .error _ => .error internalError
  | .ok none => .error notFoundError
  | .ok (some app) =>
    if app.owner ≠ owner then .error notFoundError
    else .ok (readLogsPage window cursor limit)

/-! Claim-side predicates: readings of spec sentences, to be related to the
source-side definitions above. -/

/-- Claim-side reading of the failed-progressing test of C1: the Progressing
condition (`find` returns the first one) has status "False" and reason
"ProgressDeadlineExceeded". -/
def progressingFailed (d : V1Deployment) : Bool :=
  match d.status.conditions.find? fun c => c.type_ == "Progressing" with
  | some p => p.status == "False" && p.reason == some "ProgressDeadlineExceeded"
  | none => false

/-- Claim-side reading of the healthy test of C1: ready and available replicas
positive and the observed generation has caught up. -/
def observedHealthy (d : V1Deployment) : Prop :=
  0 < d.status.readyReplicas.getD 0 ∧ 0 < d.status.availableReplicas.getD 0 ∧
    d.metadata.generation.getD 0 ≤ d.status.observedGeneration.getD 0

/-- The desired replica count as the source reads it (`spec?.replicas ?? 1`). -/
def desiredReplicas (d : V1Deployment) : Int :=
  (d.spec.bind fun s => s.replicas).getD 1

/-- A concrete deployment carrying a deletion marker, used as witness input. -/
def exDeletingDeployment : V1Deployment :=
  { metadata :=
      { name := none
        labels := []
        annotations := []
        deletionTimestamp := some "2026-01-01T00:00:00Z"
        generation := none
        creationTimestamp := none
        resourceVersion := none }
    spec := some { replicas := some 3, templateImage := none }
    status :=
      { conditions := [{ type_ := "Progressing", status := "False",
                         reason := some "ProgressDeadlineExceeded" }]
        readyReplicas := some 2
        availableReplicas := some 2
        observedGeneration := some 1
        replicas := some 2 } }

/-- A concrete record with an uppercase letter in its owner and a non-pending
status, used to exhibit the failure of the literal round-trip claim. -/
def exUpperOwnerRecord : AppRecord :=
  { app_id := "a1"
    deployment_id := "d1"
    owner := "Alice"
    name := "blog"
    description := "desc"
    image := "img:tag"
    url := "https://blog.example"
    status := .healthy
    created_at := "c"
    updated_at := "u"
    ttl_expiry := "t" }

/-- A concrete one-app cluster: the three objects `upsertAppResources` builds
for `exUpperOwnerRecord` at one replica. -/
def exCluster : Cluster :=
  { deployments := [deploymentBodyFor exUpperOwnerRecord 1]
    services := [serviceBodyFor exUpperOwnerRecord]
    ingresses := [ingressBodyFor exUpperOwnerRecord] }

/-- The cluster after stopping the app of `exCluster`: only the deployment is
replaced, by the patched body. -/
def exClusterStopped : Cluster :=
  { exCluster with
      deployments := [replicasPatch (deploymentBodyFor exUpperOwnerRecord 1)
        { replicas := some 1, templateImage := some "img:tag" } 0 .stopped "t1"] }

/-- The record re-read after stopping the app of `exCluster`. -/
def exStoppedRecord : AppRecord :=
  { exUpperOwnerRecord with owner := "alice", status := .stopped, updated_at := "t1" }

/-- Claim-side predicate of C10: the string contains at least one ASCII
uppercase letter (the fragment on which `toLowerCase` is modelled). -/
def hasAsciiUpper (s : String) : Bool :=
  s.data.any fun c => 'A' ≤ c && c ≤ 'Z'

/-- The cluster with no managed objects. -/
def emptyCluster : Cluster :=
  { deployments := [], services := [], ingresses := [] }

/-- A concrete service configuration for witnesses. -/
def exCfg : ServiceConfig :=
  { registryHost := "reg", appBaseDomain := "apps.example" }

/-- The record `upsertApp` builds in the first call of the C3 counterexample
run (empty description). -/
def exBadApp1 : AppRecord :=
  { app_id := "a1", deployment_id := "d1", owner := "alice", name := "blog",
    description := "", image := "reg/alice/blog:v1", url := "https://blog.apps.example",
    status := .deploying, created_at := "t1", updated_at := "t1", ttl_expiry := "e1" }

/-- The record `upsertApp` builds in the second call of the C3 counterexample
run: the stored record failed to decode, so fresh identifiers were minted. -/
def exBadApp2 : AppRecord :=
  { app_id := "a2", deployment_id := "d2", owner := "alice", name := "blog",
    description := "", image := "reg/alice/blog:v2", url := "https://blog.apps.example",
    status := .deploying, created_at := "t2", updated_at := "t2", ttl_expiry := "e2" }

/-- Cluster after the first counterexample upsert. -/
def exBadC1 : Cluster :=
  upsertAppResources emptyCluster exBadApp1 1

/-- Cluster after the second counterexample upsert. -/
def exBadC2 : Cluster :=
  upsertAppResources exBadC1 exBadApp2 1

/-! Theorems. -/

/-- Claim C1: for every observed deployment object, `statusFromDeployment`
returns the lifecycle status by fixed precedence, first match wins: deletion
marker → `deleting`; else desired replicas = 0 → `stopped`; else a Progressing
condition with status "False" and reason "ProgressDeadlineExceeded" →
`failed`; else ready > 0, available > 0 and observedGeneration ≥ generation →
`healthy`; else observed total replicas = 0 → `pending`; else `deploying`.
In particular a deletion marker wins over every replica count and condition
list, and desired replicas = 0 wins over every condition list. -/
theorem statusFromDeployment_precedence (d : V1Deployment) :
    (d.metadata.deletionTimestamp.isSome = true → statusFromDeployment d = .deleting) ∧
    (d.metadata.deletionTimestamp = none →
      (desiredReplicas d = 0 → statusFromDeployment d = .stopped) ∧
      (desiredReplicas d ≠ 0 →
        (progressingFailed d = true → statusFromDeployment d = .failed) ∧
        (progressingFailed d = false →
          (observedHealthy d → statusFromDeployment d = .healthy) ∧
          (¬ observedHealthy d →
            (d.status.replicas.getD 0 = 0 → statusFromDeployment d = .pending) ∧
            (d.status.replicas.getD 0 ≠ 0 → statusFromDeployment d = .deploying))))) := by
  unfold statusFromDeployment progressingFailed observedHealthy desiredReplicas
  refine ⟨fun hdel => by simp [hdel], fun hdel => ?_⟩
  simp only [hdel, Option.isSome_none, Bool.false_eq_true, if_false]
  refine ⟨fun hrep => by simp [hrep], fun hrep => ?_⟩
  rw [if_neg hrep]
  constructor
  · intro hprog
    rw [hprog]
    simp
  · intro hprog
    rw [hprog]
    simp only [Bool.false_eq_true, if_false]
    refine ⟨fun hh => by rw [if_pos hh], fun hh => ?_⟩
    rw [if_neg hh]
    exact ⟨fun hz => by rw [if_pos hz], fun hz => by rw [if_neg hz]⟩

/-- Witness for C1 at a concrete deployment: the deletion marker forces
`deleting` even with desired replicas 3, ready replicas 2 and a failed
Progressing condition. -/
theorem statusFromDeployment_precedence_witness :
    statusFromDeployment exDeletingDeployment = .deleting :=
  (statusFromDeployment_precedence exDeletingDeployment).1 (by decide)

/-- Claim C4: for each identity lookup, zero decoded records give `ok none`,
exactly one gives that record, and more than one is a consistency error, never
a silent pick of one match. -/
theorem identity_lookups_zero_one_many (c : Cluster) (owner name appId now : String) :
    (ownerNameMatches c owner name now = [] →
      findAppByOwnerAndName c owner name now = .ok none) ∧
    (∀ r, ownerNameMatches c owner name now = [r] →
      findAppByOwnerAndName c owner name now = .ok (some r)) ∧
    (1 < (ownerNameMatches c owner name now).length →
      findAppByOwnerAndName c owner name now = .error "multiple-deployments-for-owner-and-name") ∧
    (idMatches c appId now = [] → findAppById c appId now = .ok none) ∧
    (∀ r, idMatches c appId now = [r] → findAppById c appId now = .ok (some r)) ∧
    (1 < (idMatches c appId now).length →
      findAppById c appId now = .error "multiple-deployments-for-app-id") := by
  unfold findAppByOwnerAndName findAppById
  refine ⟨fun h => by simp [h], fun r h => by simp [h], fun h => by simp [h],
    fun h => by simp [h], fun r h => by simp [h], fun h => by simp [h]⟩

/-- Witness for C4 at a concrete state: the empty cluster has no matches and
both lookups report not-found as `ok none`. -/
theorem identity_lookups_zero_one_many_witness :
    findAppByOwnerAndName { deployments := [], services := [], ingresses := [] } "alice"
        "blog" "t0" = .ok none ∧
      findAppById { deployments := [], services := [], ingresses := [] } "id1" "t0" = .ok none :=
  ⟨(identity_lookups_zero_one_many { deployments := [], services := [], ingresses := [] }
      "alice" "blog" "id1" "t0").1 (by decide),
   (identity_lookups_zero_one_many { deployments := [], services := [], ingresses := [] }
      "alice" "blog" "id1" "t0").2.2.2.1 (by decide)⟩

/-- Guard characterization: the per-object guard succeeds exactly on success
or not-found. -/
theorem deleteGuard_ok_iff (o : Except KubeErr Unit) :
    deleteGuard o = .ok () ↔ okOrNotFound o = true := by
  cases o with
  | ok u => cases u; simp [deleteGuard, okOrNotFound]
  | error e =>
    simp only [deleteGuard, okOrNotFound]
    by_cases h : isNotFoundError e = true
    · simp [h]
    · simp [h, Bool.eq_false_iff.mpr h]

/-- Guard characterization: the guard fails only by rethrowing a non-not-found
error of the underlying delete. -/
theorem deleteGuard_error_iff (o : Except KubeErr Unit) (e : KubeErr) :
    deleteGuard o = .error e ↔ o = .error e ∧ isNotFoundError e = false := by
  cases o with
  | ok u => cases u; simp [deleteGuard]
  | error e' =>
    simp only [deleteGuard]
    by_cases h : isNotFoundError e' = true
    · simp [h]
      intro he; subst he; simp [h]
    · simp [Bool.eq_false_iff.mpr h]
      intro he; subst he; simp [Bool.eq_false_iff.mpr h]

/-- Claim C9: with the three delete outcomes issued independently, the
aggregate succeeds exactly when each of the ingress, service and deployment
deletes succeeded or was not-found (so deleting an already-deleted app
succeeds), and any surfaced error is a non-not-found error of one of the three
deletes. -/
theorem deleteAppResources_idempotent_propagates (ing svc dep : Except KubeErr Unit) :
    (deleteAppResourcesOutcome ing svc dep = .ok () ↔
      okOrNotFound ing = true ∧ okOrNotFound svc = true ∧ okOrNotFound dep = true) ∧
    (∀ e, deleteAppResourcesOutcome ing svc dep = .error e →
      isNotFoundError e = false ∧ (ing = .error e ∨ svc = .error e ∨ dep = .error e)) := by
  constructor
  · unfold deleteAppResourcesOutcome
    cases hg1 : deleteGuard ing with
    | error e =>
      have h1 := (deleteGuard_error_iff ing e).mp hg1
      simp only []
      constructor
      · intro h; cases h
      · rintro ⟨ha, _, _⟩
        have := (deleteGuard_ok_iff ing).mpr ha
        rw [this] at hg1; cases hg1
    | ok u =>
      cases u
      have h1 : okOrNotFound ing = true := (deleteGuard_ok_iff ing).mp hg1
      cases hg2 : deleteGuard svc with
      | error e =>
        simp only []
        constructor
        · intro h; cases h
        · rintro ⟨_, hb, _⟩
          have := (deleteGuard_ok_iff svc).mpr hb
          rw [this] at hg2; cases hg2
      | ok v =>
        cases v
        have h2 : okOrNotFound svc = true := (deleteGuard_ok_iff svc).mp hg2
        simp only [h1, h2, true_and]
        exact deleteGuard_ok_iff dep
  · intro e he
    unfold deleteAppResourcesOutcome at he
    cases hg1 : deleteGuard ing with
    | error e1 =>
      rw [hg1] at he
      cases he
      have := (deleteGuard_error_iff ing e).mp hg1
      exact ⟨this.2, Or.inl this.1⟩
    | ok u =>
      cases u
      rw [hg1] at he
      cases hg2 : deleteGuard svc with
      | error e2 =>
        rw [hg2] at he
        cases he
        have := (deleteGuard_error_iff svc e).mp hg2
        exact ⟨this.2, Or.inr (Or.inl this.1)⟩
      | ok v =>
        cases v
        rw [hg2] at he
        have := (deleteGuard_error_iff dep e).mp he
        exact ⟨this.2, Or.inr (Or.inr this.1)⟩

/-- Witness for C9 at concrete outcomes: all three deletes reporting 404 (the
already-deleted app) aggregate to success. -/
theorem deleteAppResources_idempotent_propagates_witness :
    deleteAppResourcesOutcome (.error { apiException := true, code := 404 })
      (.error { apiException := true, code := 404 })
      (.error { apiException := true, code := 404 }) = .ok () :=
  (deleteAppResources_idempotent_propagates
    (.error { apiException := true, code := 404 })
    (.error { apiException := true, code := 404 })
    (.error { apiException := true, code := 404 })).1.mpr (by decide)

/-- Claim C8: for `getApp`, `stopApp`, `startApp`, `deleteApp` and `getLogs`,
the error when the app does not exist is identical to the error when it exists
but belongs to a different owner: the same 404 `not_found` `ApiError` value in
all ten cases, and its status is 404, not 403. -/
theorem ownership_gate_indistinguishable (c : Cluster) (owner appId now : String)
    (window : List String) (cursor : Option String) (limit : Nat) :
    (findAppById c appId now = .ok none →
      getApp c owner appId now = .error notFoundError ∧
      stopApp c owner appId now = .error notFoundError ∧
      startApp c owner appId now = .error notFoundError ∧
      deleteApp c owner appId now = .error notFoundError ∧
      getLogs c owner appId window cursor limit now = .error notFoundError) ∧
    (∀ r, findAppById c appId now = .ok (some r) → r.owner ≠ owner →
      getApp c owner appId now = .error notFoundError ∧
      stopApp c owner appId now = .error notFoundError ∧
      startApp c owner appId now = .error notFoundError ∧
      deleteApp c owner appId now = .error notFoundError ∧
      getLogs c owner appId window cursor limit now = .error notFoundError) ∧
    notFoundError.status = 404 := by
  refine ⟨fun h => ?_, fun r h hown => ?_, rfl⟩
  · unfold getApp stopApp startApp deleteApp getLogs
    rw [h]
    exact ⟨rfl, rfl, rfl, rfl, rfl⟩
  · unfold getApp stopApp startApp deleteApp getLogs
    rw [h]
    simp [if_pos hown]

/-- Witness for C8 at a concrete state: on the empty cluster (app absent) all
five operations fail with the single 404 `not_found` error value. -/
theorem ownership_gate_indistinguishable_witness :
    getApp { deployments := [], services := [], ingresses := [] } "alice" "id1" "t0"
        = .error notFoundError ∧
      stopApp { deployments := [], services := [], ingresses := [] } "alice" "id1" "t0"
        = .error notFoundError ∧
      startApp { deployments := [], services := [], ingresses := [] } "alice" "id1" "t0"
        = .error notFoundError ∧
      deleteApp { deployments := [], services := [], ingresses := [] } "alice" "id1" "t0"
        = .error notFoundError ∧
      getLogs { deployments := [], services := [], ingresses := [] } "alice" "id1" ["l1"]
        none 200 "t0" = .error notFoundError :=
  (ownership_gate_indistinguishable { deployments := [], services := [], ingresses := [] }
    "alice" "id1" "t0" ["l1"] none 200).1 (by decide)

/-- Every base64url alphabet index below 64 is recovered by `b64Index`. -/
theorem b64Index_b64Char : ∀ i, i < 64 → b64Index (b64Char i) = some i := by decide

/-- Encoding a nonempty byte list yields a nonempty character list. -/
theorem base64urlEncode_ne_nil : ∀ bs : List Nat, bs ≠ [] → base64urlEncode bs ≠ []
  | [], h => absurd rfl h
  | [_], _ => by simp [base64urlEncode]
  | [_, _], _ => by simp [base64urlEncode]
  | _ :: _ :: _ :: _, _ => by simp [base64urlEncode]

/-- The base64url codec round-trips byte lists. -/
theorem base64urlDecode_encode : ∀ bs : List Nat, (∀ b ∈ bs, b < 256) →
    base64urlDecode (base64urlEncode bs) = some bs
  | [], _ => rfl
  | [b1], h => by
    have hb1 : b1 < 256 := h b1 (by simp)
    simp only [base64urlEncode, base64urlDecode]
    rw [b64Index_b64Char (b1 / 4) (by omega), b64Index_b64Char (b1 % 4 * 16) (by omega)]
    simp only [Option.some.injEq, List.cons.injEq, and_true]
    omega
  | [b1, b2], h => by
    have hb1 : b1 < 256 := h b1 (by simp)
    have hb2 : b2 < 256 := h b2 (by simp)
    simp only [base64urlEncode, base64urlDecode]
    rw [b64Index_b64Char (b1 / 4) (by omega),
      b64Index_b64Char (b1 % 4 * 16 + b2 / 16) (by omega),
      b64Index_b64Char (b2 % 16 * 4) (by omega)]
    simp only [Option.some.injEq, List.cons.injEq, and_true]
    constructor <;> omega
  | b1 :: b2 :: b3 :: rest, h => by
    have hb1 : b1 < 256 := h b1 (by simp)
    have hb2 : b2 < 256 := h b2 (by simp)
    have hb3 : b3 < 256 := h b3 (by simp)
    have hrec := base64urlDecode_encode rest (fun b hb => h b (by simp [hb]))
    simp only [base64urlEncode, base64urlDecode]
    rw [b64Index_b64Char (b1 / 4) (by omega),
      b64Index_b64Char (b1 % 4 * 16 + b2 / 16) (by omega),
      b64Index_b64Char (b2 % 16 * 4 + b3 / 64) (by omega),
      b64Index_b64Char (b3 % 64) (by omega), hrec]
    simp only [Option.some.injEq, List.cons.injEq]
    refine ⟨by omega, by omega, by omega, trivial⟩

/-- The code of a digit character. -/
theorem digitChar_toNat (d : Nat) (h : d < 10) : (digitChar d).toNat = 48 + d := by
  interval_cases d <;> decide

/-- Digit characters pass the digit test. -/
theorem digitChar_isDigit (d : Nat) (h : d < 10) : isDigitChar (digitChar d) = true := by
  interval_cases d <;> decide

/-- A digit character survives the byte round trip. -/
theorem digitChar_ofNat_toNat (d : Nat) (h : d < 10) :
    Char.ofNat (digitChar d).toNat = digitChar d := by
  interval_cases d <;> decide

/-- Every character the decimal renderer emits is a digit character. -/
theorem natToDecimalAux_mem (fuel : Nat) : ∀ n, n < fuel →
    ∀ c ∈ natToDecimalAux fuel n, ∃ d, d < 10 ∧ c = digitChar d := by
  induction fuel with
  | zero => intro n h; omega
  | succ fuel ih =>
    intro n hn c hc
    unfold natToDecimalAux at hc
    by_cases h10 : n < 10
    · simp only [if_pos h10, List.mem_singleton] at hc
      exact ⟨n, h10, hc⟩
    · simp only [if_neg h10, List.mem_append, List.mem_singleton] at hc
      rcases hc with hc | hc
      · have hlt : n / 10 < fuel := by
          have := Nat.div_lt_self (show 0 < n by omega) (show 1 < 10 by omega)
          omega
        exact ih (n / 10) hlt c hc
      · exact ⟨n % 10, by omega, hc⟩

/-- Appending one digit multiplies the accumulated value by ten. -/
theorem digitsVal_append_digit (xs : List Char) (c : Char) :
    digitsVal (xs ++ [c]) = digitsVal xs * 10 + (c.toNat - 48) := by
  simp [digitsVal, List.foldl_append]

/-- The decimal renderer is left inverse to digit-string evaluation. -/
theorem natToDecimalAux_val (fuel : Nat) : ∀ n, n < fuel →
    digitsVal (natToDecimalAux fuel n) = n := by
  induction fuel with
  | zero => intro n h; omega
  | succ fuel ih =>
    intro n hn
    unfold natToDecimalAux
    by_cases h10 : n < 10
    · rw [if_pos h10]
      show digitsVal [digitChar n] = n
      simp [digitsVal, digitChar_toNat n h10]
    · rw [if_neg h10, digitsVal_append_digit]
      have hlt : n / 10 < fuel := by
        have := Nat.div_lt_self (show 0 < n by omega) (show 1 < 10 by omega)
        omega
      rw [ih (n / 10) hlt, digitChar_toNat (n % 10) (by omega)]
      omega

/-- The decimal renderer never returns the empty list. -/
theorem natToDecimal_ne_nil (n : Nat) : natToDecimal n ≠ [] := by
  unfold natToDecimal natToDecimalAux
  by_cases h10 : n < 10
  · simp [h10]
  · simp [h10]

/-- Mapping a function that fixes every member is the identity. -/
theorem map_id_of_mem {α : Type} (f : α → α) : ∀ l : List α, (∀ x ∈ l, f x = x) → l.map f = l
  | [], _ => rfl
  | x :: xs, h => by
    simp only [List.map_cons, h x (by simp)]
    rw [map_id_of_mem f xs fun y hy => h y (by simp [hy])]

/-- The cursor codec round-trips every offset. -/
theorem decodeCursor_encodeCursor (n : Nat) : decodeCursor (some (encodeCursor n)) = n := by
  have hmem := natToDecimalAux_mem (n + 1) n (by omega)
  have hbytes : ∀ b ∈ strToBytes (String.mk (natToDecimal n)), b < 256 := by
    intro b hb
    simp only [strToBytes, List.mem_map] at hb
    obtain ⟨c, hc, rfl⟩ := hb
    obtain ⟨d, hd, rfl⟩ := hmem c hc
    rw [digitChar_toNat d hd]
    omega
  have hne : base64urlEncode (strToBytes (String.mk (natToDecimal n))) ≠ [] := by
    apply base64urlEncode_ne_nil
    simp only [strToBytes, ne_eq, List.map_eq_nil_iff]
    exact natToDecimal_ne_nil n
  have hbeq : (String.mk (base64urlEncode (strToBytes (String.mk (natToDecimal n)))) == "")
      = false := by
    refine beq_eq_false_iff_ne.mpr fun he => hne ?_
    simpa using congrArg String.data he
  show decodeCursorStr (encodeCursor n) = n
  unfold decodeCursorStr encodeCursor
  rw [hbeq]
  simp only [Bool.false_eq_true, if_false]
  rw [base64urlDecode_encode _ hbytes]
  show (match jsNumberNat (bytesToStr (strToBytes (String.mk (natToDecimal n)))) with
        | none => 0
        | some m => m) = n
  have hstr : bytesToStr (strToBytes (String.mk (natToDecimal n))) = String.mk (natToDecimal n) := by
    simp only [bytesToStr, strToBytes, List.map_map]
    congr 1
    refine map_id_of_mem _ _ fun c hc => ?_
    obtain ⟨d, hd, rfl⟩ := hmem c hc
    exact digitChar_ofNat_toNat d hd
  rw [hstr]
  have hdig : jsNumberNat (String.mk (natToDecimal n)) = some n := by
    unfold jsNumberNat
    rw [if_neg, if_pos]
    · exact congrArg some (natToDecimalAux_val (n + 1) n (by omega))
    · rw [List.all_eq_true]
      intro c hc
      obtain ⟨d, hd, rfl⟩ := hmem c hc
      exact digitChar_isDigit d hd
    · simp only [List.isEmpty_eq_true]
      exact natToDecimal_ne_nil n
  rw [hdig]

/-- Claim C6: log pagination over the fetched tail window. The cursor decodes
to a nonnegative offset: absent cursors and cursors that fail base64url or
numeric decoding give offset 0, and decoding inverts `encodeCursor`. The page
is exactly the window slice `[offset, offset+limit)`. The follow-up cursor
encodes `offset` plus the number of returned lines and is `null` exactly when
that position reaches the end of the window. The three successive calls on the
window a,b,c,d,e with limit 2 return pages a,b then c,d then e, with non-null,
non-null and null follow-up cursors. -/
theorem readLogs_pagination (lines : List String) (cursor : Option String) (limit : Nat) :
    (decodeCursor none = 0) ∧
    (∀ n, decodeCursor (some (encodeCursor n)) = n) ∧
    (∀ s, base64urlDecode s.data = none → decodeCursor (some s) = 0) ∧
    (∀ s bs, base64urlDecode s.data = some bs → jsNumberNat (bytesToStr bs) = none →
      decodeCursor (some s) = 0) ∧
    ((readLogsPage lines cursor limit).data = (lines.drop (decodeCursor cursor)).take limit) ∧
    ((readLogsPage lines cursor limit).next_cursor = none ↔
      lines.length ≤ decodeCursor cursor + (readLogsPage lines cursor limit).data.length) ∧
    (∀ s, (readLogsPage lines cursor limit).next_cursor = some s →
      s = encodeCursor (decodeCursor cursor + (readLogsPage lines cursor limit).data.length) ∧
      decodeCursor (some s)
        = decodeCursor cursor + (readLogsPage lines cursor limit).data.length) ∧
    (readLogsPage ["a", "b", "c", "d", "e"] none 2
        = { data := ["a", "b"], next_cursor := some (encodeCursor 2) } ∧
      readLogsPage ["a", "b", "c", "d", "e"] (some (encodeCursor 2)) 2
        = { data := ["c", "d"], next_cursor := some (encodeCursor 4) } ∧
      readLogsPage ["a", "b", "c", "d", "e"] (some (encodeCursor 4)) 2
        = { data := ["e"], next_cursor := none }) := by
  refine ⟨rfl, decodeCursor_encodeCursor, ?_, ?_, rfl, ?_, ?_, by decide, by decide, by decide⟩
  · intro s hs
    show decodeCursorStr s = 0
    unfold decodeCursorStr
    by_cases he : (s == "") = true
    · rw [if_pos he]
    · rw [if_neg he, hs]
  · intro s bs hs hnum
    show decodeCursorStr s = 0
    unfold decodeCursorStr
    by_cases he : (s == "") = true
    · rw [if_pos he]
    · rw [if_neg he, hs]
      show (match jsNumberNat (bytesToStr bs) with | none => 0 | some m => m) = 0
      rw [hnum]
  · unfold readLogsPage
    simp only []
    by_cases hlt :
        decodeCursor cursor + ((lines.drop (decodeCursor cursor)).take limit).length
          < lines.length
    · rw [if_pos hlt]
      constructor
      · intro h; cases h
      · omega
    · rw [if_neg hlt]
      constructor
      · intro _; omega
      · intro _; rfl
  · intro s hs
    unfold readLogsPage at hs
    simp only [] at hs
    by_cases hlt :
        decodeCursor cursor + ((lines.drop (decodeCursor cursor)).take limit).length
          < lines.length
    · rw [if_pos hlt] at hs
      cases hs
      exact ⟨rfl, decodeCursor_encodeCursor _⟩
    · rw [if_neg hlt] at hs
      cases hs

/-- Witness for C6 at concrete inputs: the all-punctuation cursor fails
base64url decoding and therefore decodes to offset 0. -/
theorem readLogs_pagination_witness : decodeCursor (some "!!!!") = 0 :=
  (readLogs_pagination [] none 0).2.2.1 "!!!!" (by decide)

/-- The trailing-hyphen strip is Mathlib's `rdropWhile`. -/
theorem dropTrailingHyphens_eq (l : List Char) :
    dropTrailingHyphens l = l.rdropWhile fun c => c == '-' := rfl

/-- A nonempty prefix determines the head. -/
theorem prefix_head_eq {α : Type} {l₁ l₂ : List α} (h : l₁ <+: l₂) (hne : l₁ ≠ []) :
    l₂.head? = l₁.head? := by
  obtain ⟨t, rfl⟩ := h
  cases l₁ with
  | nil => exact absurd rfl hne
  | cons a l => rfl

/-- Collapsing hyphen runs only keeps characters of the input. -/
theorem collapseFrom_subset : ∀ (p : Char) (l : List Char), ∀ c ∈ collapseFrom p l, c ∈ l
  | _, [], _, h => absurd h (List.not_mem_nil _)
  | p, x :: rest, c, h => by
    unfold collapseFrom at h
    by_cases hpx : (p == '-' && x == '-') = true
    · rw [if_pos hpx] at h
      exact List.mem_cons_of_mem x (collapseFrom_subset p rest c h)
    · rw [if_neg hpx] at h
      rcases List.mem_cons.mp h with rfl | h
      · exact List.mem_cons_self _ _
      · exact List.mem_cons_of_mem x (collapseFrom_subset x rest c h)

/-- Collapsing hyphen runs only keeps characters of the input. -/
theorem collapseHyphens_subset : ∀ (l : List Char), ∀ c ∈ collapseHyphens l, c ∈ l
  | [], _, h => absurd h (List.not_mem_nil _)
  | x :: rest, c, h => by
    unfold collapseHyphens at h
    rcases List.mem_cons.mp h with rfl | h
    · exact List.mem_cons_self _ _
    · exact List.mem_cons_of_mem x (collapseFrom_subset x rest c h)

/-- Lowercasing plus replacement emits only name characters. -/
theorem replaceDisallowed_all (cs : List Char) :
    ∀ c ∈ replaceDisallowed cs, isNameChar c = true := by
  intro c hc
  simp only [replaceDisallowed, List.mem_map] at hc
  obtain ⟨a, -, rfl⟩ := hc
  by_cases h : isNameChar a.toLower = true
  · simp [h]
  · simp [h, show isNameChar '-' = true from by decide]

/-- Structure of the name fragment: nonempty, name characters only, bounded by
`max maxLength 3` (the fallback "app" has three characters), and no hyphen at
either end. -/
theorem toKubeNameFragment_spec (v : String) (m : Nat) :
    (toKubeNameFragment v m).data ≠ [] ∧
    (∀ c ∈ (toKubeNameFragment v m).data, isNameChar c = true) ∧
    (toKubeNameFragment v m).data.length ≤ max m 3 ∧
    (toKubeNameFragment v m).data.head? ≠ some '-' ∧
    (toKubeNameFragment v m).data.getLast? ≠ some '-' := by
  unfold toKubeNameFragment
  by_cases he :
      (dropTrailingHyphens ((dropTrailingHyphens (dropLeadingHyphens
        (collapseHyphens (replaceDisallowed v.data)))).take m)).isEmpty = true
  · rw [if_pos he]
    refine ⟨by decide, by decide, ?_, by decide, by decide⟩
    exact le_trans (by decide) (Nat.le_max_right m 3)
  · rw [if_neg he]
    have hSne : dropTrailingHyphens ((dropTrailingHyphens (dropLeadingHyphens
        (collapseHyphens (replaceDisallowed v.data)))).take m) ≠ [] := by
      simpa using he
    refine ⟨hSne, ?_, ?_, ?_, ?_⟩
    · intro c hc
      rw [dropTrailingHyphens_eq] at hc
      have h1 := (List.rdropWhile_prefix _ _).sublist.subset hc
      have h2 := (List.take_sublist m _).subset h1
      rw [dropTrailingHyphens_eq] at h2
      have h3 := (List.rdropWhile_prefix _ _).sublist.subset h2
      have h4 := (List.dropWhile_suffix _).sublist.subset h3
      exact replaceDisallowed_all _ c (collapseHyphens_subset _ c h4)
    · have l1 := (List.rdropWhile_prefix (fun c => c == '-')
        ((dropTrailingHyphens (dropLeadingHyphens
          (collapseHyphens (replaceDisallowed v.data)))).take m)).sublist.length_le
      have l2 := List.length_take_le m (dropTrailingHyphens (dropLeadingHyphens
        (collapseHyphens (replaceDisallowed v.data))))
      rw [dropTrailingHyphens_eq]
      exact le_trans (le_trans l1 l2) (Nat.le_max_left m 3)
    · intro hhead
      have htake : ((dropTrailingHyphens (dropLeadingHyphens
          (collapseHyphens (replaceDisallowed v.data)))).take m).head? = some '-' := by
        rw [dropTrailingHyphens_eq] at hhead ⊢
        rw [prefix_head_eq (List.rdropWhile_prefix _ _) (by rw [← dropTrailingHyphens_eq]; exact hSne)]
        exact hhead
      have hN : (dropTrailingHyphens (dropLeadingHyphens
          (collapseHyphens (replaceDisallowed v.data)))).head? = some '-' := by
        rw [prefix_head_eq (List.take_prefix m _) ?hne]
        · exact htake
        · intro hnil
          rw [hnil] at htake
          cases htake
      have hD : (dropLeadingHyphens
          (collapseHyphens (replaceDisallowed v.data))).head? = some '-' := by
        rw [dropTrailingHyphens_eq] at hN
        rw [prefix_head_eq (List.rdropWhile_prefix _ _) ?hne2]
        · exact hN
        · intro hnil
          rw [hnil] at hN
          cases hN
      have := List.head?_dropWhile_not (fun c => c == '-')
        (collapseHyphens (replaceDisallowed v.data))
      rw [show dropLeadingHyphens (collapseHyphens (replaceDisallowed v.data))
          = (collapseHyphens (replaceDisallowed v.data)).dropWhile (fun c => c == '-')
          from rfl] at hD
      rw [hD] at this
      simp at this
    · intro hlast
      rw [dropTrailingHyphens_eq] at hlast hSne
      have hnot := List.rdropWhile_last_not (fun c => c == '-')
        ((dropTrailingHyphens (dropLeadingHyphens
          (collapseHyphens (replaceDisallowed v.data)))).take m) hSne
      rw [List.getLast?_eq_getLast _ hSne] at hlast
      have : ((List.rdropWhile (fun c => c == '-')
          ((dropTrailingHyphens (dropLeadingHyphens
            (collapseHyphens (replaceDisallowed v.data)))).take m)).getLast hSne) = '-' := by
        injection hlast
      rw [this] at hnot
      simp at hnot

/-- Structure of the id fragment: nonempty, lowercase alphanumerics only, at
most ten characters. -/
theorem idFragment_spec (a : String) :
    (idFragment a).data ≠ [] ∧
    (∀ c ∈ (idFragment a).data, isLowerAlnum c = true) ∧
    (idFragment a).data.length ≤ 10 := by
  unfold idFragment
  by_cases he : (((a.data.map Char.toLower).filter isLowerAlnum).take 10).isEmpty = true
  · rw [if_pos he]
    exact ⟨by decide, by decide, by decide⟩
  · rw [if_neg he]
    refine ⟨by simpa using he, ?_, List.length_take_le _ _⟩
    intro c hc
    exact List.of_mem_filter ((List.take_sublist 10 _).subset hc)

/-- A generated name, assembled from the prefix, a valid name fragment, a
valid id fragment and one of the three fixed suffixes, is a valid object
name. -/
theorem validObjectName_build (F I suffix : String)
    (hF : ∀ c ∈ F.data, isNameChar c = true) (hFlen : F.data.length ≤ 32)
    (hI : ∀ c ∈ I.data, isLowerAlnum c = true) (hIlen : I.data.length ≤ 10)
    (hsuf : suffix = "-dep" ∨ suffix = "-svc" ∨ suffix = "-ing") :
    validObjectName ("saki-" ++ F ++ "-" ++ I ++ suffix) = true := by
  have hsufdata : suffix.data.getLast? = some 'p' ∨ suffix.data.getLast? = some 'c' ∨
      suffix.data.getLast? = some 'g' := by
    rcases hsuf with rfl | rfl | rfl
    · exact Or.inl rfl
    · exact Or.inr (Or.inl rfl)
    · exact Or.inr (Or.inr rfl)
  have hsufall : suffix.data.all isNameChar = true := by
    rcases hsuf with rfl | rfl | rfl <;> decide
  have hsuflen : suffix.data.length = 4 := by
    rcases hsuf with rfl | rfl | rfl <;> decide
  unfold validObjectName
  simp only [String.data_append, Bool.and_eq_true]
  refine ⟨⟨⟨⟨?_, ?_⟩, ?_⟩, ?_⟩, ?_⟩
  · simp
  · have hIall : ∀ c ∈ I.data, isNameChar c = true := fun c hc => by
      simp [isNameChar, hI c hc]
    simp [List.all_append, List.all_eq_true.mpr hF, List.all_eq_true.mpr hIall, hsufall,
      show (['s', 'a', 'k', 'i', '-'].all isNameChar) = true from by decide,
      show (['-'].all isNameChar) = true from by decide]
    decide
  · simp
  · simp only [List.getLastD_eq_getLast?, List.getLast?_append]
    rcases hsufdata with h | h | h <;> simp [h]
  · simp only [List.length_append, List.length_cons, List.length_nil, decide_eq_true_eq]
    omega

/-- Claim C5: for every input pair (name, app_id), including empty and
all-punctuation names, each of the three generated resource names contains
only lowercase alphanumerics and hyphens, does not start or end with a hyphen,
and stays within the orchestrator's 63-character object-name limit; the name
fragment is nonempty, built of name characters, at most 32 characters and has
no hyphen at either end (the fallback is the fixed literal "app"); the id
fragment is nonempty, lowercase alphanumeric and at most 10 characters. -/
theorem appResourceNames_valid (name appId : String) :
    validObjectName (appResourceNamesOf name appId).deployment = true ∧
    validObjectName (appResourceNamesOf name appId).service = true ∧
    validObjectName (appResourceNamesOf name appId).ingress = true ∧
    (toKubeNameFragment name 32).data ≠ [] ∧
    (∀ c ∈ (toKubeNameFragment name 32).data, isNameChar c = true) ∧
    (toKubeNameFragment name 32).data.length ≤ 32 ∧
    (toKubeNameFragment name 32).data.head? ≠ some '-' ∧
    (toKubeNameFragment name 32).data.getLast? ≠ some '-' ∧
    (idFragment appId).data ≠ [] ∧
    (∀ c ∈ (idFragment appId).data, isLowerAlnum c = true) ∧
    (idFragment appId).data.length ≤ 10 := by
  obtain ⟨hFne, hFall, hFlen, hFhead, hFlast⟩ := toKubeNameFragment_spec name 32
  obtain ⟨hIne, hIall, hIlen⟩ := idFragment_spec appId
  have hFlen32 : (toKubeNameFragment name 32).data.length ≤ 32 := by
    have h32 : max 32 3 = 32 := by decide
    rw [h32] at hFlen
    exact hFlen
  refine ⟨?_, ?_, ?_, hFne, hFall, hFlen32, hFhead, hFlast, hIne, hIall, hIlen⟩
  · exact validObjectName_build _ _ _ hFall hFlen32 hIall hIlen (Or.inl rfl)
  · exact validObjectName_build _ _ _ hFall hFlen32 hIall hIlen (Or.inr (Or.inl rfl))
  · exact validObjectName_build _ _ _ hFall hFlen32 hIall hIlen (Or.inr (Or.inr rfl))

/-- Witness for C5 at the degenerate inputs: even for the empty name and the
empty app id all three generated names are valid (both fragments fall back to
"app"). -/
theorem appResourceNames_valid_witness :
    validObjectName (appResourceNamesOf "" "").deployment = true ∧
      validObjectName (appResourceNamesOf "!!!" "--").service = true :=
  ⟨(appResourceNames_valid "" "").1, (appResourceNames_valid "!!!" "--").2.1⟩

/-- Decoding the freshly encoded deployment body returns the record with the
owner lower-cased and the status re-derived from the observed object. -/
theorem deploymentBodyFor_decode (r : AppRecord) (replicas : Int) (now : String)
    (hid : r.app_id ≠ "") (hdep : r.deployment_id ≠ "")
    (hown : normalizeOwner r.owner ≠ "") (hname : r.name ≠ "")
    (hdesc : r.description ≠ "") (hurl : r.url ≠ "") (himg : r.image ≠ "")
    (hca : r.created_at ≠ "") (hua : r.updated_at ≠ "") (htt : r.ttl_expiry ≠ "") :
    deploymentToRecord (deploymentBodyFor r replicas) now
      = some { r with owner := normalizeOwner r.owner
                      status := statusFromDeployment (deploymentBodyFor r replicas) } := by
  have h1 : (r.app_id == "") = false := beq_eq_false_iff_ne.mpr hid
  have h2 : (r.deployment_id == "") = false := beq_eq_false_iff_ne.mpr hdep
  have h3 : (normalizeOwner r.owner == "") = false := beq_eq_false_iff_ne.mpr hown
  have h4 : (r.name == "") = false := beq_eq_false_iff_ne.mpr hname
  have h5 : (r.description == "") = false := beq_eq_false_iff_ne.mpr hdesc
  have h6 : (r.url == "") = false := beq_eq_false_iff_ne.mpr hurl
  have h7 : (r.image == "") = false := beq_eq_false_iff_ne.mpr himg
  have h8 : (r.created_at == "") = false := beq_eq_false_iff_ne.mpr hca
  have h9 : (r.updated_at == "") = false := beq_eq_false_iff_ne.mpr hua
  have h10 : (r.ttl_expiry == "") = false := beq_eq_false_iff_ne.mpr htt
  simp [deploymentToRecord, deploymentBodyFor, annotationsForApp, annGet, List.find?,
    noStatusInfo, jsTruthy, jsOr, jsOrD, ANN_APP_ID, ANN_DEPLOYMENT_ID, ANN_OWNER,
    ANN_NAME, ANN_DESCRIPTION, ANN_URL, ANN_IMAGE, ANN_CREATED_AT, ANN_UPDATED_AT,
    ANN_TTL_EXPIRY, ANN_STATUS, h1, h2, h3, h4, h5, h6, h7, h8, h9, h10]

/-- Counterexample to claim C2 as stated: for the record with owner "Alice"
and status `healthy`, the owner annotation stores the lower-cased owner rather
than the full unnormalized field value, and decoding the encoded deployment
returns owner "alice" and the re-derived status `pending`, not the record
itself. -/
theorem recordCodec_roundtrip_counterexample :
    annGet (annotationsForApp exUpperOwnerRecord .deploying) ANN_OWNER
        ≠ some exUpperOwnerRecord.owner ∧
      deploymentToRecord (deploymentBodyFor exUpperOwnerRecord 1) "t-now"
        ≠ some exUpperOwnerRecord := by
  decide

/-- Claim C2 as amended: for every record whose app_id, deployment_id,
normalized owner, name, description, url, image, created_at, updated_at and
ttl_expiry are nonempty, decoding the encoded deployment returns the record
with owner replaced by its lower-cased form and status replaced by the status
derived from the fresh object, which is `pending` for the freshly built body;
encode always populates all eleven annotations, and the stored values are the
full unnormalized field values except the owner annotation, which stores the
lower-cased owner, and the status annotation, which stores the encoder's
status argument. -/
theorem recordCodec_roundtrip (r : AppRecord) (status : AppStatus) (replicas : Int) (now : String)
    (hid : r.app_id ≠ "") (hdep : r.deployment_id ≠ "")
    (hown : normalizeOwner r.owner ≠ "") (hname : r.name ≠ "")
    (hdesc : r.description ≠ "") (hurl : r.url ≠ "") (himg : r.image ≠ "")
    (hca : r.created_at ≠ "") (hua : r.updated_at ≠ "") (htt : r.ttl_expiry ≠ "") :
    deploymentToRecord (deploymentBodyFor r replicas) now
        = some { r with owner := normalizeOwner r.owner
                        status := statusFromDeployment (deploymentBodyFor r replicas) } ∧
      statusFromDeployment (deploymentBodyFor r 1) = .pending ∧
      annGet (annotationsForApp r status) ANN_APP_ID = some r.app_id ∧
      annGet (annotationsForApp r status) ANN_DEPLOYMENT_ID = some r.deployment_id ∧
      annGet (annotationsForApp r status) ANN_OWNER = some (normalizeOwner r.owner) ∧
      annGet (annotationsForApp r status) ANN_NAME = some r.name ∧
      annGet (annotationsForApp r status) ANN_DESCRIPTION = some r.description ∧
      annGet (annotationsForApp r status) ANN_URL = some r.url ∧
      annGet (annotationsForApp r status) ANN_IMAGE = some r.image ∧
      annGet (annotationsForApp r status) ANN_CREATED_AT = some r.created_at ∧
      annGet (annotationsForApp r status) ANN_UPDATED_AT = some r.updated_at ∧
      annGet (annotationsForApp r status) ANN_TTL_EXPIRY = some r.ttl_expiry ∧
      annGet (annotationsForApp r status) ANN_STATUS = some (statusToString status) := by
  exact ⟨deploymentBodyFor_decode r replicas now hid hdep hown hname hdesc hurl himg
    hca hua htt, rfl, rfl, rfl, rfl, rfl, rfl, rfl, rfl, rfl, rfl, rfl, rfl⟩

/-- Witness for the amended C2 at a concrete record: the round trip returns
the record with owner lower-cased to "alice" and status re-derived to
`pending`. -/
theorem recordCodec_roundtrip_witness :
    deploymentToRecord (deploymentBodyFor exUpperOwnerRecord 1) "t-now"
      = some { exUpperOwnerRecord with
                 owner := normalizeOwner exUpperOwnerRecord.owner
                 status := statusFromDeployment (deploymentBodyFor exUpperOwnerRecord 1) } :=
  (recordCodec_roundtrip exUpperOwnerRecord .deploying 1 "t-now" (by decide) (by decide)
    (by decide) (by decide) (by decide) (by decide) (by decide) (by decide) (by decide)
    (by decide)).1

/-- Lookup skips a head whose key differs. -/
theorem annGet_cons_of_neg {l : List (String × String)} {q : String × String} {k : String}
    (h : (q.1 == k) = false) : annGet (q :: l) k = annGet l k := by
  unfold annGet
  rw [List.find?_cons_of_neg]
  simp [h]

/-- Lookup returns a head whose key matches. -/
theorem annGet_cons_of_pos {l : List (String × String)} {q : String × String} {k : String}
    (h : (q.1 == k) = true) : annGet (q :: l) k = some q.2 := by
  unfold annGet
  rw [List.find?_cons_of_pos]
  · rfl
  · exact h

/-- Spread-update distributes over a head whose key differs. -/
theorem annSet_cons_of_neg (q : String × String) (t : List (String × String)) (k v : String)
    (h : (q.1 == k) = false) : annSet (q :: t) k v = q :: annSet t k v := by
  unfold annSet
  by_cases ht : (t.any fun p => p.1 == k) = true
  · simp [List.any_cons, h, ht]
    exact fun hqe => absurd hqe (beq_eq_false_iff_ne.mp h)
  · simp [List.any_cons, h, ht]

/-- The in-place overwrite map leaves foreign keys' bindings unchanged. -/
theorem annGet_mapSet (k v k' : String) (h : k' ≠ k) :
    ∀ t : List (String × String),
      annGet (t.map fun p => if p.1 == k then (k, v) else p) k' = annGet t k'
  | [] => rfl
  | q :: t => by
    have hkk' : ((k, v).1 == k') = false := beq_eq_false_iff_ne.mpr fun he => h he.symm
    by_cases hq : (q.1 == k) = true
    · simp only [List.map_cons, if_pos hq]
      have hqk' : (q.1 == k') = false := by
        rw [eq_of_beq hq]
        exact beq_eq_false_iff_ne.mpr fun he => h he.symm
      rw [annGet_cons_of_neg hkk', annGet_cons_of_neg hqk']
      exact annGet_mapSet k v k' h t
    · simp only [List.map_cons, if_neg hq]
      by_cases hqk' : (q.1 == k') = true
      · rw [annGet_cons_of_pos hqk', annGet_cons_of_pos hqk']
      · rw [annGet_cons_of_neg (by simpa using hqk'), annGet_cons_of_neg (by simpa using hqk')]
        exact annGet_mapSet k v k' h t

/-- Spread-update binds the written key to the written value. -/
theorem annGet_annSet_same : ∀ (a : List (String × String)) (k v : String),
    annGet (annSet a k v) k = some v
  | [], k, v => by
    simp [annSet, annGet, List.find?]
  | q :: t, k, v => by
    by_cases hq : (q.1 == k) = true
    · unfold annSet
      have hany : ((q :: t).any fun p => p.1 == k) = true := by simp [List.any_cons, hq]
      rw [if_pos hany]
      simp only [List.map_cons, if_pos hq]
      exact annGet_cons_of_pos (by simp)
    · rw [annSet_cons_of_neg q t k v (by simpa using hq), annGet_cons_of_neg (by simpa using hq)]
      exact annGet_annSet_same t k v

/-- Spread-update leaves every other key's binding unchanged. -/
theorem annGet_annSet_other : ∀ (a : List (String × String)) (k v k' : String), k' ≠ k →
    annGet (annSet a k v) k' = annGet a k'
  | [], k, v, k', h => by
    have : (k == k') = false := beq_eq_false_iff_ne.mpr fun he => h he.symm
    simp [annSet, annGet, List.find?, this]
  | q :: t, k, v, k', h => by
    by_cases hq : (q.1 == k) = true
    · unfold annSet
      have hany : ((q :: t).any fun p => p.1 == k) = true := by simp [List.any_cons, hq]
      rw [if_pos hany]
      simp only [List.map_cons, if_pos hq]
      have hkk' : ((k, v).1 == k') = false := beq_eq_false_iff_ne.mpr fun he => h he.symm
      have hqk' : (q.1 == k') = false := by
        rw [eq_of_beq hq]
        exact beq_eq_false_iff_ne.mpr fun he => h he.symm
      rw [annGet_cons_of_neg hkk', annGet_cons_of_neg hqk']
      exact annGet_mapSet k v k' h t
    · rw [annSet_cons_of_neg q t k v (by simpa using hq)]
      by_cases hqk' : (q.1 == k') = true
      · rw [annGet_cons_of_pos hqk', annGet_cons_of_pos hqk']
      · rw [annGet_cons_of_neg (by simpa using hqk'), annGet_cons_of_neg (by simpa using hqk')]
        exact annGet_annSet_other t k v k' h

/-- Claim C7: `setAppReplicas` modifies only the deployment object — the
service and ingress lists are untouched and the other deployments are mapped
to themselves — and on that object only the desired replica count and the
`updated_at` and `status` annotations change: every other annotation of the
read deployment is preserved, as are its name, labels, version token
(`resourceVersion`), deletion marker, generation, creation timestamp, observed
status and container image; the returned record is the one freshly re-read
through `findAppById` on the updated cluster. -/
theorem setAppReplicas_frame (c : Cluster) (app : AppRecord) (replicas : Int)
    (status : AppStatus) (now : String) (c' : Cluster) (updated : AppRecord)
    (h : setAppReplicas c app replicas status now = .ok (c', updated)) :
    c'.services = c.services ∧
    c'.ingresses = c.ingresses ∧
    (∃ dep spec,
      c.deployments.find?
          (fun d => d.metadata.name == some (appResourceNames app).deployment) = some dep ∧
      dep.spec = some spec ∧
      c'.deployments = c.deployments.map (fun d =>
        if d.metadata.name == some (appResourceNames app).deployment then
          replicasPatch dep spec replicas status now
        else d) ∧
      (replicasPatch dep spec replicas status now).metadata.resourceVersion
        = dep.metadata.resourceVersion ∧
      (replicasPatch dep spec replicas status now).metadata.name = dep.metadata.name ∧
      (replicasPatch dep spec replicas status now).metadata.labels = dep.metadata.labels ∧
      (replicasPatch dep spec replicas status now).metadata.deletionTimestamp
        = dep.metadata.deletionTimestamp ∧
      (replicasPatch dep spec replicas status now).metadata.generation
        = dep.metadata.generation ∧
      (replicasPatch dep spec replicas status now).metadata.creationTimestamp
        = dep.metadata.creationTimestamp ∧
      (replicasPatch dep spec replicas status now).status = dep.status ∧
      (replicasPatch dep spec replicas status now).spec
        = some { spec with replicas := some replicas } ∧
      annGet (replicasPatch dep spec replicas status now).metadata.annotations ANN_UPDATED_AT
        = some now ∧
      annGet (replicasPatch dep spec replicas status now).metadata.annotations ANN_STATUS
        = some (statusToString status) ∧
      (∀ k, k ≠ ANN_UPDATED_AT → k ≠ ANN_STATUS →
        annGet (replicasPatch dep spec replicas status now).metadata.annotations k
          = annGet dep.metadata.annotations k)) ∧
    findAppById c' app.app_id now = .ok (some updated) := by
  unfold setAppReplicas at h
  cases hfind : c.deployments.find?
      (fun d => d.metadata.name == some (appResourceNames app).deployment) with
  | none => rw [hfind] at h; cases h
  | some dep =>
    rw [hfind] at h
    simp only [] at h
    cases hspec : dep.spec with
    | none => rw [hspec] at h; cases h
    | some spec =>
      rw [hspec] at h
      simp only [] at h
      cases hre : findAppById (replicasReplace c app dep spec replicas status now)
          app.app_id now with
      | error e => rw [hre] at h; cases h
      | ok u =>
        rw [hre] at h
        cases u with
        | none => cases h
        | some updated' =>
          cases h
          refine ⟨rfl, rfl, ⟨dep, spec, rfl, hspec, rfl, rfl, rfl, rfl, rfl, rfl, rfl, rfl,
            rfl, ?_, ?_, ?_⟩, hre⟩
          · show annGet (annSet (annSet dep.metadata.annotations ANN_UPDATED_AT now)
              ANN_STATUS (statusToString status)) ANN_UPDATED_AT = some now
            rw [annGet_annSet_other _ _ _ _ (by decide), annGet_annSet_same]
          · exact annGet_annSet_same _ _ _
          · intro k hk1 hk2
            show annGet (annSet (annSet dep.metadata.annotations ANN_UPDATED_AT now)
              ANN_STATUS (statusToString status)) k = annGet dep.metadata.annotations k
            rw [annGet_annSet_other _ _ _ _ hk2, annGet_annSet_other _ _ _ _ hk1]

/-- Witness for C7 at a concrete cluster: stopping the example app leaves the
service and ingress objects untouched and the returned record is the freshly
re-read one. -/
theorem setAppReplicas_frame_witness :
    exClusterStopped.services = exCluster.services ∧
      exClusterStopped.ingresses = exCluster.ingresses ∧
      findAppById exClusterStopped "a1" "t1" = .ok (some exStoppedRecord) :=
  have h : setAppReplicas exCluster exUpperOwnerRecord 0 .stopped "t1"
      = .ok (exClusterStopped, exStoppedRecord) := by decide
  ⟨(setAppReplicas_frame exCluster exUpperOwnerRecord 0 .stopped "t1"
      exClusterStopped exStoppedRecord h).1,
   (setAppReplicas_frame exCluster exUpperOwnerRecord 0 .stopped "t1"
      exClusterStopped exStoppedRecord h).2.1,
   (setAppReplicas_frame exCluster exUpperOwnerRecord 0 .stopped "t1"
      exClusterStopped exStoppedRecord h).2.2.2⟩

/-- Character order transfers to code points. -/
theorem char_le_toNat {a b : Char} (h : a ≤ b) : a.toNat ≤ b.toNat := by
  simp only [Char.le_def, UInt32.le_def, BitVec.le_def] at h
  exact h

/-- Code points below the surrogate range survive `Char.ofNat`. -/
theorem toNat_ofNat_valid (n : Nat) (h : n < 55296) : (Char.ofNat n).toNat = n := by
  rw [Char.ofNat, dif_pos (Or.inl h)]
  simp [Char.ofNatAux, Char.toNat, UInt32.ofNat', UInt32.toNat]

/-- Lowercasing moves an ASCII uppercase letter. -/
theorem toLower_ne_of_upper (c : Char) (h : ('A' ≤ c && c ≤ 'Z') = true) : c.toLower ≠ c := by
  rw [Bool.and_eq_true] at h
  obtain ⟨ha, hb⟩ := h
  have h1 := char_le_toNat (of_decide_eq_true ha)
  have h2 := char_le_toNat (of_decide_eq_true hb)
  rw [show ('A').toNat = 65 from rfl] at h1
  rw [show ('Z').toNat = 90 from rfl] at h2
  intro heq
  rw [Char.toLower] at heq
  rw [if_pos ⟨h1, h2⟩] at heq
  have := congrArg Char.toNat heq
  rw [toNat_ofNat_valid _ (by omega)] at this
  omega

/-- A map fixing a list pointwise is recovered from the mapped list. -/
theorem map_eq_self_mem {α : Type} (f : α → α) :
    ∀ l : List α, l.map f = l → ∀ x ∈ l, f x = x
  | [], _, x, hx => absurd hx (List.not_mem_nil x)
  | a :: t, h, x, hx => by
    rw [List.map_cons] at h
    injection h with h1 h2
    rcases List.mem_cons.mp hx with rfl | hx
    · exact h1
    · exact map_eq_self_mem f t h2 x hx

/-- An owner containing an ASCII uppercase letter is changed by
`normalizeOwner`. -/
theorem normalizeOwner_ne_of_upper (s : String) (h : hasAsciiUpper s = true) :
    normalizeOwner s ≠ s := by
  intro heq
  unfold hasAsciiUpper at h
  rw [List.any_eq_true] at h
  obtain ⟨c, hc, hup⟩ := h
  have hdata : s.data.map Char.toLower = s.data := congrArg String.data heq
  exact toLower_ne_of_upper c hup (map_eq_self_mem _ _ hdata c hc)

/-- An owner containing an uppercase letter is nonempty, and so is its
normalization. -/
theorem normalizeOwner_ne_empty (s : String) (h : hasAsciiUpper s = true) :
    normalizeOwner s ≠ "" := by
  intro heq
  unfold hasAsciiUpper at h
  rw [List.any_eq_true] at h
  obtain ⟨c, hc, -⟩ := h
  have hdata : s.data.map Char.toLower = [] := congrArg String.data heq
  rw [List.map_eq_nil_iff] at hdata
  rw [hdata] at hc
  exact List.not_mem_nil c hc

/-- The app URL built by `upsertApp` is never the empty string. -/
theorem appUrl_ne_empty (name base : String) : ("https://" ++ name ++ "." ++ base) ≠ "" := by
  intro h
  have := congrArg String.data h
  simp [String.data_append] at this

/-- A decoded record has nonempty identifiers and, when the decode-time clock
string is nonempty, a nonempty creation timestamp. -/
theorem decode_some_fields (d : V1Deployment) (now : String) (r : AppRecord)
    (h : deploymentToRecord d now = some r) (hnow : now ≠ "") :
    r.app_id ≠ "" ∧ r.deployment_id ≠ "" ∧ r.created_at ≠ "" := by
  unfold deploymentToRecord at h
  by_cases hg : (jsTruthy (annGet d.metadata.annotations ANN_APP_ID)
      && jsTruthy (annGet d.metadata.annotations ANN_DEPLOYMENT_ID)
      && jsTruthy (annGet d.metadata.annotations ANN_OWNER)
      && jsTruthy (annGet d.metadata.annotations ANN_NAME)
      && jsTruthy (annGet d.metadata.annotations ANN_DESCRIPTION)
      && jsTruthy (annGet d.metadata.annotations ANN_URL)
      && jsTruthy (jsOr (annGet d.metadata.annotations ANN_IMAGE)
          (d.spec.bind fun s => s.templateImage))) = true
  · rw [if_pos hg] at h
    injection h with h
    subst h
    simp only [Bool.and_eq_true] at hg
    obtain ⟨⟨⟨⟨⟨⟨hA, hB⟩, -⟩, -⟩, -⟩, -⟩, -⟩ := hg
    refine ⟨?_, ?_, ?_⟩
    · show (annGet d.metadata.annotations ANN_APP_ID).getD "" ≠ ""
      cases hx : annGet d.metadata.annotations ANN_APP_ID with
      | none => rw [hx] at hA; cases hA
      | some s =>
        rw [hx] at hA
        simpa [jsTruthy] using hA
    · show (annGet d.metadata.annotations ANN_DEPLOYMENT_ID).getD "" ≠ ""
      cases hx : annGet d.metadata.annotations ANN_DEPLOYMENT_ID with
      | none => rw [hx] at hB; cases hB
      | some s =>
        rw [hx] at hB
        simpa [jsTruthy] using hB
    · show jsOrD (jsOr (annGet d.metadata.annotations ANN_CREATED_AT)
        d.metadata.creationTimestamp) now ≠ ""
      unfold jsOrD
      by_cases ht : jsTruthy (jsOr (annGet d.metadata.annotations ANN_CREATED_AT)
          d.metadata.creationTimestamp) = true
      · rw [if_pos ht]
        cases hx : jsOr (annGet d.metadata.annotations ANN_CREATED_AT)
            d.metadata.creationTimestamp with
        | none => rw [hx] at ht; cases ht
        | some s =>
          rw [hx] at ht
          simpa [jsTruthy] using ht
      · rw [if_neg ht]
        exact hnow
  · rw [if_neg hg] at h
    cases h

/-- A successful (owner, name) lookup returning a record exhibits a listed
deployment decoding to it. -/
theorem findAppByOwnerAndName_decode (c : Cluster) (owner name now : String) (r : AppRecord)
    (h : findAppByOwnerAndName c owner name now = .ok (some r)) :
    ∃ d, deploymentToRecord d now = some r := by
  unfold findAppByOwnerAndName at h
  by_cases hlen : 1 < (ownerNameMatches c owner name now).length
  · rw [if_pos hlen] at h; cases h
  · rw [if_neg hlen] at h
    injection h with h
    cases hm : ownerNameMatches c owner name now with
    | nil => rw [hm] at h; cases h
    | cons a t =>
      rw [hm] at h
      injection h with h
      have ha : a ∈ ownerNameMatches c owner name now := by
        rw [hm]
        exact List.mem_cons_self _ _
      unfold ownerNameMatches at ha
      obtain ⟨d, -, hd⟩ := List.mem_filterMap.mp ha
      exact ⟨d, h ▸ hd⟩

/-- Shape of a successful `upsertApp`: with the image namespace check passing,
the operation writes the three resources for the record it builds — existing
identifiers when the lookup found a record, fresh ones otherwise — and returns
the response carrying those identifiers. -/
theorem upsertApp_shape (cfg : ServiceConfig) (c : Cluster)
    (owner name description image now ttl freshA freshD : String)
    (himg : jsStartsWith image (cfg.registryHost ++ "/" ++ owner ++ "/" ++ name ++ ":") = true) :
    (findAppByOwnerAndName c owner name now = .ok none →
      upsertApp cfg c owner name description image now ttl freshA freshD
        = .ok (upsertAppResources c
            { app_id := freshA, deployment_id := freshD, owner := owner, name := name,
              description := description, image := image,
              url := "https://" ++ name ++ "." ++ cfg.appBaseDomain, status := .deploying,
              created_at := now, updated_at := now, ttl_expiry := ttl } 1,
            { app_id := freshA, deployment_id := freshD,
              url := "https://" ++ name ++ "." ++ cfg.appBaseDomain, status := .deploying })) ∧
    (∀ e, findAppByOwnerAndName c owner name now = .ok (some e) →
      e.app_id ≠ "" → e.deployment_id ≠ "" → e.created_at ≠ "" →
      upsertApp cfg c owner name description image now ttl freshA freshD
        = .ok (upsertAppResources c
            { app_id := e.app_id, deployment_id := e.deployment_id, owner := owner,
              name := name, description := description, image := image,
              url := "https://" ++ name ++ "." ++ cfg.appBaseDomain, status := .deploying,
              created_at := e.created_at, updated_at := now, ttl_expiry := ttl } 1,
            { app_id := e.app_id, deployment_id := e.deployment_id,
              url := "https://" ++ name ++ "." ++ cfg.appBaseDomain, status := .deploying })) := by
  constructor
  · intro hfind
    unfold upsertApp
    rw [himg]
    simp only [Bool.not_true, Bool.false_eq_true, if_false]
    rw [hfind]
    simp [jsOrD, jsTruthy]
  · intro e hfind ha hb hc
    unfold upsertApp
    rw [himg]
    simp only [Bool.not_true, Bool.false_eq_true, if_false]
    rw [hfind]
    simp [jsOrD, jsTruthy, beq_eq_false_iff_ne.mpr ha, beq_eq_false_iff_ne.mpr hb,
      beq_eq_false_iff_ne.mpr hc]

/-- Looking the app up by (owner, name) right after its resources were written
to the empty cluster returns the decoded stored record. -/
theorem findAppByOwnerAndName_upserted (app : AppRecord) (now : String)
    (hid : app.app_id ≠ "") (hdep : app.deployment_id ≠ "")
    (hown : normalizeOwner app.owner ≠ "") (hname : app.name ≠ "")
    (hdesc : app.description ≠ "") (hurl : app.url ≠ "") (himg : app.image ≠ "")
    (hca : app.created_at ≠ "") (hua : app.updated_at ≠ "") (htt : app.ttl_expiry ≠ "") :
    findAppByOwnerAndName (upsertAppResources emptyCluster app 1) app.owner app.name now
      = .ok (some { app with owner := normalizeOwner app.owner
                             status := statusFromDeployment (deploymentBodyFor app 1) }) := by
  have hdec := deploymentBodyFor_decode app 1 now hid hdep hown hname hdesc hurl himg hca hua htt
  have hlab : (deploymentBodyFor app 1).metadata.labels = labelsForApp app := rfl
  have hlist : listDeployments (upsertAppResources emptyCluster app 1)
      [(LABEL_MANAGED_BY, CONTROL_PLANE_LABEL_VALUE),
       (LABEL_OWNER, toLabelValue (normalizeOwner app.owner)),
       (LABEL_APP_NAME, toLabelValue app.name)] = [deploymentBodyFor app 1] := by
    simp [listDeployments, upsertAppResources, createOrReplaceDeployment,
      createOrReplaceObject, emptyCluster, matchesSelector, annGet, List.find?, hlab,
      labelsForApp, LABEL_MANAGED_BY, LABEL_OWNER, LABEL_APP_NAME, LABEL_APP_ID,
      CONTROL_PLANE_LABEL_VALUE]
  unfold findAppByOwnerAndName ownerNameMatches
  rw [hlist]
  simp [List.filterMap_cons, hdec]

/-- Looking the app up by id right after its resources were written to the
empty cluster returns the decoded stored record. -/
theorem findAppById_upserted (app : AppRecord) (now : String)
    (hid : app.app_id ≠ "") (hdep : app.deployment_id ≠ "")
    (hown : normalizeOwner app.owner ≠ "") (hname : app.name ≠ "")
    (hdesc : app.description ≠ "") (hurl : app.url ≠ "") (himg : app.image ≠ "")
    (hca : app.created_at ≠ "") (hua : app.updated_at ≠ "") (htt : app.ttl_expiry ≠ "") :
    findAppById (upsertAppResources emptyCluster app 1) app.app_id now
      = .ok (some { app with owner := normalizeOwner app.owner
                             status := statusFromDeployment (deploymentBodyFor app 1) }) := by
  have hdec := deploymentBodyFor_decode app 1 now hid hdep hown hname hdesc hurl himg hca hua htt
  have hlab : (deploymentBodyFor app 1).metadata.labels = labelsForApp app := rfl
  have hlist : listDeployments (upsertAppResources emptyCluster app 1)
      [(LABEL_MANAGED_BY, CONTROL_PLANE_LABEL_VALUE),
       (LABEL_APP_ID, toLabelValue app.app_id)] = [deploymentBodyFor app 1] := by
    simp [listDeployments, upsertAppResources, createOrReplaceDeployment,
      createOrReplaceObject, emptyCluster, matchesSelector, annGet, List.find?, hlab,
      labelsForApp, LABEL_MANAGED_BY, LABEL_OWNER, LABEL_APP_NAME, LABEL_APP_ID,
      CONTROL_PLANE_LABEL_VALUE]
  unfold findAppById idMatches
  rw [hlist]
  simp [List.filterMap_cons, hdec]

/-- Counterexample to claim C3's unconditional sequential consequence: with an
empty description (which the request validation allows), the object stored by
the first upsert fails to decode, so the second upsert for the same
(owner, name) ("alice", "blog") mints the fresh identifiers "a2"/"d2" instead
of returning "a1"/"d1". -/
theorem upsertApp_identity_counterexample :
    upsertApp exCfg emptyCluster "alice" "blog" "" "reg/alice/blog:v1" "t1" "e1" "a1" "d1"
        = .ok (exBadC1, { app_id := "a1", deployment_id := "d1",
                          url := "https://blog.apps.example", status := .deploying }) ∧
      upsertApp exCfg exBadC1 "alice" "blog" "" "reg/alice/blog:v2" "t2" "e2" "a2" "d2"
        = .ok (exBadC2, { app_id := "a2", deployment_id := "d2",
                          url := "https://blog.apps.example", status := .deploying }) ∧
      ("a2" : String) ≠ "a1" ∧ ("d2" : String) ≠ "d1" := by
  decide

/-- Claim C3 as amended: app_id and deployment_id are write-once. If the
lookup finds an existing record, the upsert reuses its app_id, deployment_id
and created_at regardless of the new description and image; if it finds none,
the fresh identifiers are minted. Two successive upserts for the same
(owner, name), starting from the empty cluster, yield identical app_id and
deployment_id provided the first call's stored record is decodable — in
particular its description is nonempty; the counterexample shows the claim
fails without that proviso. -/
theorem upsertApp_write_once (cfg : ServiceConfig) (c : Cluster)
    (owner name description image now ttl freshA freshD : String)
    (himg : jsStartsWith image (cfg.registryHost ++ "/" ++ owner ++ "/" ++ name ++ ":") = true)
    (hnow : now ≠ "") :
    (∀ e, findAppByOwnerAndName c owner name now = .ok (some e) →
      upsertApp cfg c owner name description image now ttl freshA freshD
        = .ok (upsertAppResources c
            { app_id := e.app_id, deployment_id := e.deployment_id, owner := owner,
              name := name, description := description, image := image,
              url := "https://" ++ name ++ "." ++ cfg.appBaseDomain, status := .deploying,
              created_at := e.created_at, updated_at := now, ttl_expiry := ttl } 1,
            { app_id := e.app_id, deployment_id := e.deployment_id,
              url := "https://" ++ name ++ "." ++ cfg.appBaseDomain, status := .deploying })) ∧
    (findAppByOwnerAndName c owner name now = .ok none →
      upsertApp cfg c owner name description image now ttl freshA freshD
        = .ok (upsertAppResources c
            { app_id := freshA, deployment_id := freshD, owner := owner, name := name,
              description := description, image := image,
              url := "https://" ++ name ++ "." ++ cfg.appBaseDomain, status := .deploying,
              created_at := now, updated_at := now, ttl_expiry := ttl } 1,
            { app_id := freshA, deployment_id := freshD,
              url := "https://" ++ name ++ "." ++ cfg.appBaseDomain, status := .deploying })) ∧
    (∀ description2 image2 now2 ttl2 freshA2 freshD2 c1 resp1 c2 resp2,
      jsStartsWith image2 (cfg.registryHost ++ "/" ++ owner ++ "/" ++ name ++ ":") = true →
      now2 ≠ "" → name ≠ "" → description ≠ "" → image ≠ "" → ttl ≠ "" →
      freshA ≠ "" → freshD ≠ "" → normalizeOwner owner ≠ "" →
      upsertApp cfg emptyCluster owner name description image now ttl freshA freshD
        = .ok (c1, resp1) →
      upsertApp cfg c1 owner name description2 image2 now2 ttl2 freshA2 freshD2
        = .ok (c2, resp2) →
      resp2.app_id = resp1.app_id ∧ resp2.deployment_id = resp1.deployment_id) := by
  refine ⟨?_, ?_, ?_⟩
  · intro e hfind
    obtain ⟨d, hd⟩ := findAppByOwnerAndName_decode c owner name now e hfind
    obtain ⟨ha, hb, hc⟩ := decode_some_fields d now e hd hnow
    exact (upsertApp_shape cfg c owner name description image now ttl freshA freshD himg).2
      e hfind ha hb hc
  · intro hfind
    exact (upsertApp_shape cfg c owner name description image now ttl freshA freshD himg).1 hfind
  · intro description2 image2 now2 ttl2 freshA2 freshD2 c1 resp1 c2 resp2
      himg2 hnow2 hname hdesc himgne httl hfa hfd hownne h1 h2
    have hfe : findAppByOwnerAndName emptyCluster owner name now = .ok none := rfl
    have hs1 := (upsertApp_shape cfg emptyCluster owner name description image now ttl
      freshA freshD himg).1 hfe
    rw [hs1] at h1
    injection h1 with h1
    injection h1 with hc1 hresp1
    have hfind2 := findAppByOwnerAndName_upserted
      { app_id := freshA, deployment_id := freshD, owner := owner, name := name,
        description := description, image := image,
        url := "https://" ++ name ++ "." ++ cfg.appBaseDomain, status := .deploying,
        created_at := now, updated_at := now, ttl_expiry := ttl } now2
      hfa hfd hownne hname hdesc (appUrl_ne_empty name cfg.appBaseDomain) himgne hnow hnow httl
    subst hc1
    have hs2 := (upsertApp_shape cfg
      (upsertAppResources emptyCluster
        { app_id := freshA, deployment_id := freshD, owner := owner, name := name,
          description := description, image := image,
          url := "https://" ++ name ++ "." ++ cfg.appBaseDomain, status := .deploying,
          created_at := now, updated_at := now, ttl_expiry := ttl } 1)
      owner name description2 image2 now2 ttl2 freshA2 freshD2 himg2).2
      _ hfind2 hfa hfd hnow
    rw [hs2] at h2
    injection h2 with h2
    injection h2 with hc2 hresp2
    rw [← hresp1, ← hresp2]
    exact ⟨rfl, rfl⟩

/-- Witness for the amended C3 at a concrete cluster holding a decodable
record: redeploying the example app with a new description and image reuses
the stored identifiers "a1"/"d1" instead of the offered fresh ones. -/
theorem upsertApp_write_once_witness :
    upsertApp exCfg exCluster "alice" "blog" "newdesc" "reg/alice/blog:v9" "t2" "e2" "aF" "dF"
      = .ok (upsertAppResources exCluster
          { app_id := "a1", deployment_id := "d1", owner := "alice", name := "blog",
            description := "newdesc", image := "reg/alice/blog:v9",
            url := "https://blog.apps.example", status := .deploying,
            created_at := "c", updated_at := "t2", ttl_expiry := "e2" } 1,
        { app_id := "a1", deployment_id := "d1",
          url := "https://blog.apps.example", status := .deploying }) :=
  (upsertApp_write_once exCfg exCluster "alice" "blog" "newdesc" "reg/alice/blog:v9"
    "t2" "e2" "aF" "dF" (by decide) (by decide)).1
    { app_id := "a1", deployment_id := "d1", owner := "alice", name := "blog",
      description := "desc", image := "img:tag", url := "https://blog.example",
      status := .pending, created_at := "c", updated_at := "u", ttl_expiry := "t" }
    (by decide)

/-- Claim C10: the owner annotation written by encode is always the
lower-cased owner string and decode returns it verbatim; consequently, for
every owner containing an ASCII uppercase letter, after a successful
`upsertApp` by that owner every subsequent `getApp`, `stopApp`, `startApp`,
`deleteApp` or `getLogs` call passing the same owner string fails with the
404 not-found error, because the service compares the caller's owner by
strict string equality against the lower-cased stored value. -/
theorem upper_owner_locked_out (cfg : ServiceConfig)
    (owner name description image now ttl freshA freshD now2 : String)
    (window : List String) (cursor : Option String) (limit : Nat)
    (hupper : hasAsciiUpper owner = true)
    (himg : jsStartsWith image (cfg.registryHost ++ "/" ++ owner ++ "/" ++ name ++ ":") = true)
    (hname : name ≠ "") (hdesc : description ≠ "") (himgne : image ≠ "")
    (hnow : now ≠ "") (httl : ttl ≠ "") (hfa : freshA ≠ "") (hfd : freshD ≠ "") :
    (∀ (app : AppRecord) (status : AppStatus),
      annGet (annotationsForApp app status) ANN_OWNER = some (normalizeOwner app.owner)) ∧
    (∀ c' resp,
      upsertApp cfg emptyCluster owner name description image now ttl freshA freshD
        = .ok (c', resp) →
      getApp c' owner resp.app_id now2 = .error notFoundError ∧
      stopApp c' owner resp.app_id now2 = .error notFoundError ∧
      startApp c' owner resp.app_id now2 = .error notFoundError ∧
      deleteApp c' owner resp.app_id now2 = .error notFoundError ∧
      getLogs c' owner resp.app_id window cursor limit now2 = .error notFoundError) := by
  refine ⟨fun app status => rfl, ?_⟩
  intro c' resp hup
  have hfe : findAppByOwnerAndName emptyCluster owner name now = .ok none := rfl
  have hs := (upsertApp_shape cfg emptyCluster owner name description image now ttl
    freshA freshD himg).1 hfe
  rw [hs] at hup
  injection hup with hup
  injection hup with hc hresp
  subst hc
  subst hresp
  have hfind := findAppById_upserted
    { app_id := freshA, deployment_id := freshD, owner := owner, name := name,
      description := description, image := image,
      url := "https://" ++ name ++ "." ++ cfg.appBaseDomain, status := .deploying,
      created_at := now, updated_at := now, ttl_expiry := ttl } now2
    hfa hfd (normalizeOwner_ne_empty owner hupper) hname hdesc
    (appUrl_ne_empty name cfg.appBaseDomain) himgne hnow hnow httl
  have hne : normalizeOwner owner ≠ owner := normalizeOwner_ne_of_upper owner hupper
  refine ⟨?_, ?_, ?_, ?_, ?_⟩
  · unfold getApp
    simp only []
    rw [hfind]
    simp only []
    rw [if_pos hne]
  · unfold stopApp
    simp only []
    rw [hfind]
    simp only []
    rw [if_pos hne]
  · unfold startApp
    simp only []
    rw [hfind]
    simp only []
    rw [if_pos hne]
  · unfold deleteApp
    simp only []
    rw [hfind]
    simp only []
    rw [if_pos hne]
  · unfold getLogs
    simp only []
    rw [hfind]
    simp only []
    rw [if_pos hne]

/-- Witness for C10 at a concrete run: after owner "Alice" upserts the app,
a `getApp` with the same owner string "Alice" answers the 404 not-found
error. -/
theorem upper_owner_locked_out_witness :
    getApp (upsertAppResources emptyCluster
        { app_id := "a9", deployment_id := "d9", owner := "Alice", name := "blog",
          description := "desc", image := "reg/Alice/blog:v1",
          url := "https://blog.apps.example", status := .deploying,
          created_at := "t1", updated_at := "t1", ttl_expiry := "e1" } 1)
      "Alice" "a9" "t2" = .error notFoundError := by
  have h := ((upper_owner_locked_out exCfg "Alice" "blog" "desc" "reg/Alice/blog:v1"
    "t1" "e1" "a9" "d9" "t2" [] none 200 (by decide) (by decide) (by decide) (by decide)
    (by decide) (by decide) (by decide) (by decide) (by decide)).2
    (upsertAppResources emptyCluster
      { app_id := "a9", deployment_id := "d9", owner := "Alice", name := "blog",
        description := "desc", image := "reg/Alice/blog:v1",
        url := "https://blog.apps.example", status := .deploying,
        created_at := "t1", updated_at := "t1", ttl_expiry := "e1" } 1)
    { app_id := "a9", deployment_id := "d9", url := "https://blog.apps.example",
      status := .deploying } (by decide)).1
  exact h

end Saki
